import Mathlib

/-!
Verification of the event-registration backend's core pipeline against its
specification: identity allocation (utils/saveRegistration.js), the coupon
ledger (coupon routers), the upgrade transactor (routes/tickets-upgrade.js)
and the ticket resolver (routes/tickets-scan.js).

The JavaScript source is shallowly embedded: Mongo collections become lists
of documents, `Date.now` becomes an explicit `Nat` timestamp argument,
`Math.random`-driven code generation becomes an explicit stream of codes
(`gen : Nat → String`), and external collaborators (payment order creation,
mail dispatch) become explicit result parameters.  All definitions are
executable.
-/

set_option maxRecDepth 8192

deriving instance DecidableEq for Except

namespace EventBackend

/-! ## JavaScript string primitives

All string operations are implemented by structural recursion over the
character list, so that every definition reduces in the kernel. -/

/-- ASCII whitespace (the characters occurring in the data in scope). -/
def isWs (c : Char) : Bool := c = ' ' || c = '\t' || c = '\n' || c = '\r'

/-- JS `String.prototype.trim`. -/
def jsTrim (s : String) : String :=
  String.mk ((((s.data.dropWhile isWs).reverse).dropWhile isWs).reverse)

/-- ASCII lower-casing of one character. -/
def charLower (c : Char) : Char :=
  if 'A' ≤ c && c ≤ 'Z' then Char.ofNat (c.toNat + 32) else c

/-- ASCII upper-casing of one character. -/
def charUpper (c : Char) : Char :=
  if 'a' ≤ c && c ≤ 'z' then Char.ofNat (c.toNat - 32) else c

/-- JS `.toLowerCase` (ASCII). -/
def jsLower (s : String) : String := String.mk (s.data.map charLower)

/-- JS `.toUpperCase` (ASCII). -/
def jsUpper (s : String) : String := String.mk (s.data.map charUpper)

/-- `/^\d+$/.test(s)` — nonempty and all ASCII digits. -/
def isDigitsOnly (s : String) : Bool := !s.data.isEmpty && s.data.all Char.isDigit

/-- `Number(s)` for an all-digits string. -/
def digitsToInt (s : String) : Int :=
  (s.data.foldl (fun a c => a * 10 + (c.toNat - 48)) 0 : Nat)

/-- Does the character list end with `'s'`? (`String.endsWith "s"`). -/
def endsWithS (s : String) : Bool := s.data.getLast? = some 's'

/-- Drop the final character (`String.dropRight 1`). -/
def dropLastChar (s : String) : String := String.mk s.data.dropLast

/-- One step of collapsing runs of whitespace / hyphens to a single underscore
(the `.replace(/[\s-]+/g, '_')` in the inline `safeFieldName` fallback).
The flag records whether the previous character was part of such a run. -/
def collapseWsHyphen : Bool → List Char → List Char
  | _, [] => []
  | prevSep, c :: cs =>
    if c = '-' || isWs c then
      if prevSep then collapseWsHyphen true cs
      else '_' :: collapseWsHyphen true cs
    else c :: collapseWsHyphen false cs

/-- Keep only `[a-z0-9_]` (the `.replace(/[^a-z0-9_]/g, '')`). -/
def keepWordChars (cs : List Char) : List Char :=
  cs.filter fun c => c.isLower || c.isDigit || c = '_'

/-- Field-name normalization used by `saveRegistration`
(`String(k).trim().toLowerCase().replace(/[\s-]+/g,'_').replace(/[^a-z0-9_]/g,'')`,
the inline fallback of `safeFieldName`). -/
def safeFieldName (k : String) : String :=
  String.mk (keepWordChars (collapseWsHyphen false (jsLower (jsTrim k)).data))

/-- Collapse runs of underscores to one (`.replace(/_+/g, '_')`). -/
def collapseUnderscores : Bool → List Char → List Char
  | _, [] => []
  | prevU, c :: cs =>
    if c = '_' then
      if prevU then collapseUnderscores true cs
      else '_' :: collapseUnderscores true cs
    else c :: collapseUnderscores false cs

/-! ## Form values and Mongo documents (saveRegistration) -/

/-- A permissively-typed form / document field value. -/
inductive FVal where
  | vstr (s : String)
  | vnum (n : Int)
  | vbool (b : Bool)
  | vnull
  | vdate (t : Nat)
deriving DecidableEq

/-- JS `String(v)` on a field value. -/
def fvalToString : FVal → String
  | .vstr s => s
  | .vnum n => toString n
  | .vbool b => if b then "true" else "false"
  | .vnull => "null"
  | .vdate t => toString t

/-- JS truthiness of a field value (a `Date` object is always truthy). -/
def FVal.truthy : FVal → Bool
  | .vstr s => s ≠ ""
  | .vnum n => n ≠ 0
  | .vbool b => b
  | .vnull => false
  | .vdate _ => true

/-- A submitted form: its plain entries, plus the optional `_rawForm`
sub-object (the code treats that key specially). -/
structure Form where
  entries : List (String × FVal)
  rawFormEntries : Option (List (String × FVal))
deriving DecidableEq

/-- JS object property read (object keys are unique, so first match). -/
def getField : List (String × FVal) → String → Option FVal
  | [], _ => none
  | p :: ps, k => if p.1 = k then some p.2 else getField ps k

/-- JS object property assignment: overwrite in place, else append. -/
def setField : List (String × FVal) → String → FVal → List (String × FVal)
  | [], k, v => [(k, v)]
  | p :: ps, k, v => if p.1 = k then (k, v) :: ps else p :: setField ps k v

/-- The normalize-and-whitelist mapping loop of `saveRegistration`
(lines 103–122): skip `_rawForm`, normalize each key, apply the optional
whitelist, then merge `_rawForm` entries for keys not already present. -/
def mappedFields (form : Form) (wl : Option (List String)) :
    List (String × FVal) :=
  let wlNorm := wl.map fun ws =>
    (ws.map safeFieldName).filter (· ≠ "")
  let keep := fun (safe : String) =>
    match wlNorm with
    | some ws => ws.contains safe
    | none => true
  let m0 := form.entries.foldl
    (fun acc kv =>
      if kv.1 = "_rawForm" then acc
      else
        let safe := safeFieldName kv.1
        if safe = "" then acc
        else if keep safe then setField acc safe kv.2 else acc)
    ([] : List (String × FVal))
  match form.rawFormEntries with
  | none => m0
  | some raws => raws.foldl
      (fun acc kv =>
        let safe := safeFieldName kv.1
        if safe = "" then acc
        else if (getField acc safe).isSome then acc
        else if keep safe then setField acc safe kv.2 else acc) m0

/-- `normalizeTicketCodeValue` (String + trim) composed with the optional
`ticket_code_num` projection, applied to a document (lines 129–133). -/
def normalizeTicketCodeField (b : List (String × FVal)) : List (String × FVal) :=
  match getField b "ticket_code" with
  | some v =>
    if v = .vnull then b
    else
      if isDigitsOnly (jsTrim (fvalToString v)) then
        setField (setField b "ticket_code" (.vstr (jsTrim (fvalToString v))))
          "ticket_code_num" (.vnum (digitsToInt (jsTrim (fvalToString v))))
      else setField b "ticket_code" (.vstr (jsTrim (fvalToString v)))
  | none => b

/-- `baseDoc` construction (lines 124–133): mapped fields, timestamps, role,
then ticket-code normalization.  The `_rawForm` copy is carried separately in
the document structure. -/
def buildBaseDoc (form : Form) (wl : Option (List String))
    (role : Option String) (now : Nat) : List (String × FVal) :=
  let m := mappedFields form wl
  let b := setField (setField m "updatedAt" (.vdate now)) "createdAt" (.vdate now)
  let b := match role with
    | some r => setField b "role" (.vstr r)
    | none => b
  normalizeTicketCodeField b

/-- The candidate keys scanned for an email (line 142). -/
def emailCandidates : List String :=
  ["email", "email_address", "emailAddress", "contactEmail"]

/-- The email-normalization scan (lines 141–149): first candidate key holding
a truthy string, trimmed and lower-cased. -/
def scanEmail : List String → List (String × FVal) → Option String
  | [], _ => none
  | k :: ks, b =>
    match getField b k with
    | some (.vstr s) => if s = "" then scanEmail ks b else some (jsLower (jsTrim s))
    | _ => scanEmail ks b

/-- A stored registrant document: Mongo `_id`, its fields, and the stored
`_rawForm` sub-document. -/
structure RegDoc where
  id : Nat
  fields : List (String × FVal)
  rawForm : Form
deriving DecidableEq

/-- A role collection with its `_id` counter. -/
structure RegCol where
  docs : List RegDoc
  nextId : Nat
deriving DecidableEq

/-- The registrant store: named collections. -/
structure RegDb where
  cols : List (String × RegCol)
deriving DecidableEq

/-- Named-collection read; Mongo implicitly creates empty collections. -/
def getCol : List (String × RegCol) → String → RegCol
  | [], _ => ⟨[], 0⟩
  | p :: ps, n => if p.1 = n then p.2 else getCol ps n

def setCol : List (String × RegCol) → String → RegCol → List (String × RegCol)
  | [], n, c => [(n, c)]
  | p :: ps, n, c => if p.1 = n then (n, c) :: ps else p :: setCol ps n c

def RegDb.get (db : RegDb) (name : String) : RegCol := getCol db.cols name

def RegDb.set (db : RegDb) (name : String) (c : RegCol) : RegDb :=
  ⟨setCol db.cols name c⟩

/-- `mapTargetCollection` result. -/
structure TargetRole where
  target : String
  role : Option String
deriving DecidableEq

def knownRoles : List String :=
  ["visitor", "exhibitor", "partner", "speaker", "awardee"]

/-- `normalizeCollectionName` (lines 25–31): trim+lower, map characters
outside `[a-z0-9_\-]` to `_`, collapse `_` runs, pluralize. -/
def normalizeCollectionName (name : String) : Option String :=
  if name = "" then none
  else
    let s := jsLower (jsTrim name)
    let s := String.mk (collapseUnderscores false
      (s.data.map fun c =>
        if c.isLower || c.isDigit || c = '_' || c = '-' then c else '_'))
    some (if endsWithS s then s else s ++ "s")

/-- `mapTargetCollection` (lines 33–43): known roles map to their plural
collection; anything else falls back to the derived normalized collection
with no role. -/
def mapTargetCollection (collectionName : String) : TargetRole :=
  if collectionName = "" then ⟨"visitors", some "visitor"⟩
  else
    let raw := jsLower (jsTrim collectionName)
    if raw = "" then ⟨"visitors", some "visitor"⟩
    else
      let singular := if endsWithS raw then dropLastChar raw else raw
      if knownRoles.contains singular then ⟨singular ++ "s", some singular⟩
      else ⟨(normalizeCollectionName raw).getD raw, none⟩

/-- Errors surfaced by `saveRegistration`. -/
inductive SaveErr where
  | collectionRequired
  | dupThrown
  | upsertExhausted
  | insertExhausted
deriving DecidableEq

/-- The `{ insertedId, doc, existed }` result. -/
structure SaveResult where
  insertedId : Option Nat
  doc : Option RegDoc
  existed : Bool
deriving DecidableEq

/-- `finalDoc.createdAt && finalDoc.createdAt < now` (a Date is truthy). -/
def createdBefore (fields : List (String × FVal)) (now : Nat) : Bool :=
  match getField fields "createdAt" with
  | some (.vdate t) => t < now
  | _ => false

/-- Unique-index simulation: a fresh insert raises a duplicate-key error iff
its `ticket_code` or `email` value is already present in the collection
(the sparse unique indexes ensured before every write). -/
def dupClash (col : RegCol) (fields : List (String × FVal)) : Bool :=
  (match getField fields "ticket_code" with
    | some v => col.docs.any fun d => getField d.fields "ticket_code" = some v
    | none => false) ||
  (match getField fields "email" with
    | some v => col.docs.any fun d => getField d.fields "email" = some v
    | none => false)

/-- Replace the first document satisfying `p`. -/
def updateFirst (p : RegDoc → Bool) (f : RegDoc → RegDoc) :
    List RegDoc → List RegDoc
  | [] => []
  | d :: ds => if p d then f d :: ds else d :: updateFirst p f ds

/-- The upsert filter `{ email: emailNorm }`. -/
def emailMatches (e : String) (d : RegDoc) : Bool :=
  getField d.fields "email" = some (.vstr e)

/-- The `$set: { updatedAt: now }` part of the upsert. -/
def touchUpdatedAt (now : Nat) (d : RegDoc) : RegDoc :=
  { d with fields := setField d.fields "updatedAt" (.vdate now) }

/-- Set a freshly generated, normalized ticket code plus its optional numeric
projection (the generate arms of lines 155–162). -/
def genSetCode (b : List (String × FVal)) (code : String) :
    List (String × FVal) :=
  if isDigitsOnly code then
    setField (setField b "ticket_code" (.vstr code)) "ticket_code_num"
      (.vnum (digitsToInt code))
  else setField b "ticket_code" (.vstr code)

/-- Lines 155–162: copy `baseDoc` into `setOnInsertDoc` and ensure its
`ticket_code`: normalize a present non-null value, otherwise generate one.
Returns the document and how many generator codes were consumed. -/
def setOnInsertCode (b : List (String × FVal)) (gen : Nat → String) :
    List (String × FVal) × Nat :=
  match getField b "ticket_code" with
  | some v =>
    if v = .vnull then (genSetCode b (jsTrim (gen 0)), 1)
    else (normalizeTicketCodeField b, 0)
  | none => (genSetCode b (jsTrim (gen 0)), 1)

/-- `if (!setOnInsertDoc.ticket_code) setOnInsertDoc.ticket_code = ...`
(line 168 / 206): regenerate only when the field is falsy; this in-loop
regeneration does not touch `ticket_code_num`. -/
def ensureCode (b : List (String × FVal)) (gen : Nat → String) (gi : Nat) :
    List (String × FVal) × Nat :=
  match getField b "ticket_code" with
  | some v =>
    if v.truthy then (b, gi)
    else (setField b "ticket_code" (.vstr (jsTrim (gen gi))), gi + 1)
  | none => (setField b "ticket_code" (.vstr (jsTrim (gen gi))), gi + 1)

/-- The Mongo upsert-insert document for filter `{ email }`,
`$setOnInsert: soid` and `$set: { updatedAt: now }`. -/
def upsertInsertFields (soid : List (String × FVal)) (emailNorm : String)
    (now : Nat) : List (String × FVal) :=
  setField (setField soid "email" (.vstr emailNorm)) "updatedAt" (.vdate now)

/-- The email-upsert retry loop (lines 166–201).  `findOneAndUpdate` with
`{ $setOnInsert: setOnInsertDoc, $set: { updatedAt: now } }`, upsert, and
`returnDocument: 'after'`; on duplicate-key regenerate the code (with its
numeric projection, lines 182–183) and retry; at the attempt bound the code
re-reads by the filter (which in this sequential model still matches
nothing) and rethrows. -/
def upsertAttempts (fuel : Nat) (attempt : Nat) (col : RegCol)
    (emailNorm : String) (soid : List (String × FVal)) (rawForm : Form)
    (now : Nat) (gen : Nat → String) (gi : Nat) :
    Except SaveErr (SaveResult × RegCol) :=
  match fuel with
  | 0 => .error .upsertExhausted
  | fuel + 1 =>
    match ensureCode soid gen gi with
    | (soid, gi) =>
      match col.docs.find? (emailMatches emailNorm) with
      | some d =>
        .ok ({ insertedId := some d.id, doc := some (touchUpdatedAt now d),
               existed := createdBefore (touchUpdatedAt now d).fields now },
             { col with docs :=
                 updateFirst (emailMatches emailNorm) (touchUpdatedAt now) col.docs })
      | none =>
        if dupClash col (upsertInsertFields soid emailNorm now) then
          if attempt < 6 then
            upsertAttempts fuel (attempt + 1) col emailNorm
              (genSetCode soid (jsTrim (gen gi))) rawForm now gen (gi + 1)
          else .error .dupThrown
        else
          .ok ({ insertedId := some col.nextId,
                 doc := some ⟨col.nextId, upsertInsertFields soid emailNorm now,
                   rawForm⟩,
                 existed := createdBefore (upsertInsertFields soid emailNorm now) now },
               { docs := col.docs ++
                   [⟨col.nextId, upsertInsertFields soid emailNorm now, rawForm⟩],
                 nextId := col.nextId + 1 })

/-- Line 207: `if (isDigitsOnly(baseDoc.ticket_code)) baseDoc.ticket_code_num = ...`. -/
def numProject (b : List (String × FVal)) : List (String × FVal) :=
  match getField b "ticket_code" with
  | some (.vstr s) =>
    if isDigitsOnly s then setField b "ticket_code_num" (.vnum (digitsToInt s))
    else b
  | _ => b

/-- The no-email insert retry loop (lines 204–224). -/
def insertAttempts (fuel : Nat) (attempt : Nat) (col : RegCol)
    (base : List (String × FVal)) (rawForm : Form)
    (gen : Nat → String) (gi : Nat) :
    Except SaveErr (SaveResult × RegCol) :=
  match fuel with
  | 0 => .error .insertExhausted
  | fuel + 1 =>
    match ensureCode base gen gi with
    | (base, gi) =>
      if dupClash col (numProject base) then
        if attempt < 6 then
          insertAttempts fuel (attempt + 1) col
            (setField (numProject base) "ticket_code" (.vstr (jsTrim (gen gi))))
            rawForm gen (gi + 1)
        else .error .dupThrown
      else
        .ok ({ insertedId := some col.nextId,
               doc := some ⟨col.nextId, numProject base, rawForm⟩,
               existed := false },
             { docs := col.docs ++ [⟨col.nextId, numProject base, rawForm⟩],
               nextId := col.nextId + 1 })

/-- `saveRegistration(collectionName, form, options)` (lines 84–227), with
explicit time `now` and ticket-code stream `gen`. -/
def saveRegistration (collectionName : String) (form : Form)
    (wl : Option (List String)) (db : RegDb) (now : Nat)
    (gen : Nat → String) : Except SaveErr (SaveResult × RegDb) :=
  if collectionName = "" then .error .collectionRequired
  else
    let tr := mapTargetCollection collectionName
    let base := buildBaseDoc form wl tr.role now
    let col := db.get tr.target
    match scanEmail emailCandidates base with
    | some emailNorm =>
      let base := setField base "email" (.vstr emailNorm)
      let (soid, gi) := setOnInsertCode base gen
      (upsertAttempts 6 1 col emailNorm soid form now gen gi).map
        fun (rc : SaveResult × RegCol) => (rc.1, db.set tr.target rc.2)
    | none =>
      (insertAttempts 6 1 col base form gen 0).map
        fun (rc : SaveResult × RegCol) => (rc.1, db.set tr.target rc.2)

/-! ## Field-access lemmas -/

theorem getField_setField (b : List (String × FVal)) (k : String) (v : FVal)
    (k' : String) :
    getField (setField b k v) k' = if k' = k then some v else getField b k' := by
  induction b with
  | nil =>
    simp only [setField, getField]
    by_cases h : k' = k
    · subst h; simp
    · rw [if_neg (fun h2 => h h2.symm), if_neg h]
  | cons p ps ih =>
    simp only [setField]
    by_cases hp : p.1 = k
    · rw [if_pos hp]
      simp only [getField]
      by_cases h : k' = k
      · subst h; simp
      · have hp' : ¬p.1 = k' := by rw [hp]; exact fun h2 => h h2.symm
        rw [if_neg (fun h2 => h h2.symm), if_neg h, if_neg hp']
    · rw [if_neg hp]
      simp only [getField]
      by_cases h : k' = k
      · subst h
        rw [if_neg hp, ih, if_pos rfl, if_pos rfl]
      · rw [ih, if_neg h, if_neg h]

theorem getField_genSetCode_ne (b : List (String × FVal)) (code : String)
    (k : String) (h1 : k ≠ "ticket_code") (h2 : k ≠ "ticket_code_num") :
    getField (genSetCode b code) k = getField b k := by
  unfold genSetCode
  split <;> simp [getField_setField, h1, h2]

theorem getField_normalizeTicketCodeField_ne (b : List (String × FVal))
    (k : String) (h1 : k ≠ "ticket_code") (h2 : k ≠ "ticket_code_num") :
    getField (normalizeTicketCodeField b) k = getField b k := by
  unfold normalizeTicketCodeField
  cases hv : getField b "ticket_code" with
  | none => rfl
  | some v =>
    by_cases hn : v = .vnull
    · simp [hn]
    · by_cases hd : isDigitsOnly (jsTrim (fvalToString v)) = true <;>
        simp [hn, hd, getField_setField, h1, h2]

theorem getField_setOnInsertCode_ne (b : List (String × FVal))
    (gen : Nat → String) (k : String)
    (h1 : k ≠ "ticket_code") (h2 : k ≠ "ticket_code_num") :
    getField (setOnInsertCode b gen).1 k = getField b k := by
  unfold setOnInsertCode
  cases hv : getField b "ticket_code" with
  | none => simp [getField_genSetCode_ne, h1, h2]
  | some v =>
    by_cases hn : v = .vnull <;>
      simp [hn, getField_genSetCode_ne, getField_normalizeTicketCodeField_ne, h1, h2]

theorem getField_ensureCode_ne (b : List (String × FVal)) (gen : Nat → String)
    (gi : Nat) (k : String) (h1 : k ≠ "ticket_code") :
    getField (ensureCode b gen gi).1 k = getField b k := by
  unfold ensureCode
  cases hv : getField b "ticket_code" with
  | none => simp [getField_setField, h1]
  | some v =>
    by_cases ht : v.truthy = true <;> simp [ht, getField_setField, h1]

theorem getField_buildBaseDoc_createdAt (form : Form) (wl : Option (List String))
    (role : Option String) (now : Nat) :
    getField (buildBaseDoc form wl role now) "createdAt" = some (.vdate now) := by
  unfold buildBaseDoc
  rw [getField_normalizeTicketCodeField_ne _ _ (by decide) (by decide)]
  cases role <;> simp [getField_setField]

theorem getField_buildBaseDoc_other (form : Form) (wl : Option (List String))
    (role : Option String) (now : Nat) (k : String)
    (h1 : k ≠ "updatedAt") (h2 : k ≠ "createdAt") (h3 : k ≠ "role")
    (h4 : k ≠ "ticket_code") (h5 : k ≠ "ticket_code_num") :
    getField (buildBaseDoc form wl role now) k =
      getField (mappedFields form wl) k := by
  unfold buildBaseDoc
  rw [getField_normalizeTicketCodeField_ne _ _ h4 h5]
  cases role <;> simp [getField_setField, h1, h2, h3]

theorem scanEmail_congr (ks : List String) (b b' : List (String × FVal))
    (h : ∀ k ∈ ks, getField b k = getField b' k) :
    scanEmail ks b = scanEmail ks b' := by
  induction ks with
  | nil => rfl
  | cons k ks ih =>
    have hk := h k (List.mem_cons_self k ks)
    have hks := fun x hx => h x (List.mem_cons_of_mem k hx)
    unfold scanEmail
    rw [hk]
    cases getField b' k with
    | none => exact ih hks
    | some v => cases v <;> simp [ih hks]

/-- The four email-candidate keys are untouched by the timestamp/role/code
steps of `baseDoc` construction. -/
theorem getField_buildBaseDoc_email_keys (form : Form) (wl : Option (List String))
    (role : Option String) (now : Nat) (k : String) (hk : k ∈ emailCandidates) :
    getField (buildBaseDoc form wl role now) k =
      getField (mappedFields form wl) k := by
  fin_cases hk <;>
    rw [getField_buildBaseDoc_other _ _ _ _ _ (by decide) (by decide) (by decide)
        (by decide) (by decide)]

/-- The email scan of `baseDoc` does not depend on the timestamp. -/
theorem scanEmail_buildBaseDoc_time (form : Form) (wl : Option (List String))
    (role : Option String) (t t' : Nat) :
    scanEmail emailCandidates (buildBaseDoc form wl role t) =
      scanEmail emailCandidates (buildBaseDoc form wl role t') := by
  apply scanEmail_congr
  intro k hk
  rw [getField_buildBaseDoc_email_keys _ _ _ _ _ hk,
    getField_buildBaseDoc_email_keys _ _ _ _ _ hk]

/-! ## List helper lemmas -/

theorem find?_updateFirst (p : RegDoc → Bool) (f : RegDoc → RegDoc)
    (l : List RegDoc) (d : RegDoc) (hf : l.find? p = some d)
    (hp : p (f d) = true) :
    (updateFirst p f l).find? p = some (f d) := by
  induction l with
  | nil => simp at hf
  | cons x xs ih =>
    by_cases hx : p x
    · rw [List.find?_cons_of_pos _ hx] at hf
      cases hf
      simp [updateFirst, hx, List.find?_cons_of_pos _ hp]
    · rw [List.find?_cons_of_neg _ hx] at hf
      simp [updateFirst, hx, List.find?_cons_of_neg _ hx, ih hf]

theorem length_updateFirst (p : RegDoc → Bool) (f : RegDoc → RegDoc)
    (l : List RegDoc) : (updateFirst p f l).length = l.length := by
  induction l with
  | nil => rfl
  | cons x xs ih => by_cases hx : p x <;> simp [updateFirst, hx, ih]

theorem find?_append_of_none (l₁ l₂ : List RegDoc) (p : RegDoc → Bool)
    (h : l₁.find? p = none) : (l₁ ++ l₂).find? p = l₂.find? p := by
  induction l₁ with
  | nil => rfl
  | cons x xs ih =>
    by_cases hx : p x
    · rw [List.find?_cons_of_pos _ hx] at h; cases h
    · rw [List.find?_cons_of_neg _ hx] at h
      simp [List.find?_cons_of_neg _ hx, ih h]

theorem getCol_setCol (cs : List (String × RegCol)) (n : String) (c : RegCol)
    (n' : String) :
    getCol (setCol cs n c) n' = if n' = n then c else getCol cs n' := by
  induction cs with
  | nil =>
    simp only [setCol, getCol]
    by_cases h : n' = n
    · subst h; simp
    · rw [if_neg (fun h2 => h h2.symm), if_neg h]
  | cons p ps ih =>
    simp only [setCol]
    by_cases hp : p.1 = n
    · rw [if_pos hp]
      simp only [getCol]
      by_cases h : n' = n
      · subst h; simp
      · have hp' : ¬p.1 = n' := by rw [hp]; exact fun h2 => h h2.symm
        rw [if_neg (fun h2 => h h2.symm), if_neg h, if_neg hp']
    · rw [if_neg hp]
      simp only [getCol]
      by_cases h : n' = n
      · subst h
        rw [if_neg hp, ih, if_pos rfl, if_pos rfl]
      · rw [ih, if_neg h, if_neg h]

theorem RegDb.get_set (db : RegDb) (n : String) (c : RegCol) :
    (db.set n c).get n = c := by
  simp [RegDb.get, RegDb.set, getCol_setCol]

theorem getField_numProject_ne (b : List (String × FVal)) (k : String)
    (h2 : k ≠ "ticket_code_num") :
    getField (numProject b) k = getField b k := by
  unfold numProject
  cases hv : getField b "ticket_code" with
  | none => rfl
  | some v =>
    cases v with
    | vstr s =>
      by_cases hd : isDigitsOnly s = true <;> simp [hd, getField_setField, h2]
    | vnum n => rfl
    | vbool b2 => rfl
    | vnull => rfl
    | vdate t => rfl

theorem getField_touchUpdatedAt_ne (now : Nat) (d : RegDoc) (k : String)
    (h : k ≠ "updatedAt") :
    getField (touchUpdatedAt now d).fields k = getField d.fields k := by
  simp [touchUpdatedAt, getField_setField, h]

theorem emailMatches_touchUpdatedAt (e : String) (now : Nat) (d : RegDoc) :
    emailMatches e (touchUpdatedAt now d) = emailMatches e d := by
  simp [emailMatches, getField_touchUpdatedAt_ne now d "email" (by decide)]

theorem dupClash_nil (n : Nat) (f : List (String × FVal)) :
    dupClash ⟨[], n⟩ f = false := by
  unfold dupClash
  cases getField f "ticket_code" <;> cases getField f "email" <;> simp

/-! ## Characterization of the email-upsert loop -/

/-- A successful run of the upsert loop either matched an existing document
(by email) and only touched its `updatedAt`, or appended exactly one new
document carrying the filter email and the `setOnInsert` creation date. -/
theorem upsertAttempts_ok_spec (fuel attempt : Nat) (col : RegCol) (E : String)
    (soid : List (String × FVal)) (rf : Form) (now : Nat) (gen : Nat → String)
    (gi : Nat) (r : SaveResult) (col' : RegCol)
    (h : upsertAttempts fuel attempt col E soid rf now gen gi = .ok (r, col')) :
    (∃ d, col.docs.find? (emailMatches E) = some d ∧
       r = { insertedId := some d.id, doc := some (touchUpdatedAt now d),
             existed := createdBefore (touchUpdatedAt now d).fields now } ∧
       col' = { col with
                docs := updateFirst (emailMatches E) (touchUpdatedAt now)
                  col.docs }) ∨
    (col.docs.find? (emailMatches E) = none ∧
       ∃ nd : RegDoc, nd.id = col.nextId ∧ nd.rawForm = rf ∧
         getField nd.fields "email" = some (.vstr E) ∧
         getField nd.fields "createdAt" = getField soid "createdAt" ∧
         r = { insertedId := some nd.id, doc := some nd,
               existed := createdBefore nd.fields now } ∧
         col' = { docs := col.docs ++ [nd], nextId := col.nextId + 1 }) := by
  induction fuel generalizing attempt soid gi with
  | zero => simp [upsertAttempts] at h
  | succ fuel ih =>
    rcases hec : ensureCode soid gen gi with ⟨soid1, gi1⟩
    cases hfind : col.docs.find? (emailMatches E) with
    | some d =>
      simp only [upsertAttempts, hec, hfind] at h
      injection h with h'
      injection h' with hr hc
      subst hr; subst hc
      exact Or.inl ⟨d, rfl, rfl, rfl⟩
    | none =>
      simp only [upsertAttempts, hec, hfind] at h
      by_cases hdup : dupClash col (upsertInsertFields soid1 E now) = true
      · rw [if_pos hdup] at h
        by_cases hatt : attempt < 6
        · rw [if_pos hatt] at h
          have hrec := ih (attempt + 1) (genSetCode soid1 (jsTrim (gen gi1))) (gi1 + 1) h
          rcases hrec with ⟨d, hf, _⟩ | ⟨hf, nd, hh1, hh2, hh3, hh4, hh5, hh6⟩
          · rw [hfind] at hf; cases hf
          · refine Or.inr ⟨rfl, nd, hh1, hh2, hh3, ?_, hh5, hh6⟩
            rw [hh4, getField_genSetCode_ne _ _ _ (by decide) (by decide)]
            have hq : soid1 = (ensureCode soid gen gi).1 := by rw [hec]
            rw [hq, getField_ensureCode_ne _ _ _ _ (by decide)]
        · rw [if_neg hatt] at h; cases h
      · rw [if_neg hdup] at h
        injection h with h'
        injection h' with hr hc
        subst hr; subst hc
        refine Or.inr ⟨rfl,
          ⟨col.nextId, upsertInsertFields soid1 E now, rf⟩, rfl, rfl, ?_, ?_, rfl, rfl⟩
        · unfold upsertInsertFields
          rw [getField_setField, if_neg (by decide), getField_setField, if_pos rfl]
        · unfold upsertInsertFields
          rw [getField_setField, if_neg (by decide), getField_setField,
            if_neg (by decide)]
          have hq : soid1 = (ensureCode soid gen gi).1 := by rw [hec]
          rw [hq, getField_ensureCode_ne _ _ _ _ (by decide)]

/-- When the form's normalized email matches a stored record,
`saveRegistration` returns that record with only `updatedAt` rewritten. -/
theorem saveRegistration_found_email (cn : String) (form : Form)
    (wl : Option (List String)) (db : RegDb) (now : Nat) (gen : Nat → String)
    (E : String) (d : RegDoc)
    (hcn : cn ≠ "")
    (hE : scanEmail emailCandidates
        (buildBaseDoc form wl (mapTargetCollection cn).role now) = some E)
    (hfind : (db.get (mapTargetCollection cn).target).docs.find?
        (emailMatches E) = some d) :
    saveRegistration cn form wl db now gen =
      .ok ({ insertedId := some d.id, doc := some (touchUpdatedAt now d),
             existed := createdBefore (touchUpdatedAt now d).fields now },
           db.set (mapTargetCollection cn).target
             { db.get (mapTargetCollection cn).target with
               docs := updateFirst (emailMatches E) (touchUpdatedAt now)
                 (db.get (mapTargetCollection cn).target).docs }) := by
  simp only [saveRegistration, if_neg hcn, hE]
  rcases hsoc : setOnInsertCode
    (setField (buildBaseDoc form wl (mapTargetCollection cn).role now)
      "email" (.vstr E)) gen with ⟨soid, gi⟩
  simp only [hsoc]
  rcases hec : ensureCode soid gen gi with ⟨soid1, gi1⟩
  simp only [upsertAttempts, hec, hfind, Except.map]

/-! ## Claim C7: re-allocation with an existing email -/

/-- C7 (amended): when the submitted form's email matches an existing record,
`saveRegistration` leaves every stored field of that record unchanged except
`updatedAt`, which is set to the call's timestamp; it neither inserts nor
touches any other document and returns the existing record
(`existed` per the stored creation date). -/
theorem allocate_existing_email_frame (cn : String) (form : Form)
    (wl : Option (List String)) (db : RegDb) (now : Nat) (gen : Nat → String)
    (E : String) (d : RegDoc)
    (hcn : cn ≠ "")
    (hE : scanEmail emailCandidates
        (buildBaseDoc form wl (mapTargetCollection cn).role now) = some E)
    (hfind : (db.get (mapTargetCollection cn).target).docs.find?
        (emailMatches E) = some d) :
    saveRegistration cn form wl db now gen =
      .ok ({ insertedId := some d.id, doc := some (touchUpdatedAt now d),
             existed := createdBefore (touchUpdatedAt now d).fields now },
           db.set (mapTargetCollection cn).target
             { db.get (mapTargetCollection cn).target with
               docs := updateFirst (emailMatches E) (touchUpdatedAt now)
                 (db.get (mapTargetCollection cn).target).docs }) ∧
    ∀ k, k ≠ "updatedAt" →
      getField (touchUpdatedAt now d).fields k = getField d.fields k :=
  ⟨saveRegistration_found_email cn form wl db now gen E d hcn hE hfind,
   fun k hk => getField_touchUpdatedAt_ne now d k hk⟩

/-- The stored registrant of the C7 scenario. -/
def regC7doc : RegDoc :=
  ⟨7, [("email", .vstr "a@x.com"), ("ticket_code", .vstr "TICK-AAAAAA"),
       ("createdAt", .vdate 1), ("updatedAt", .vdate 5)], ⟨[], none⟩⟩

/-- The store of the C7 scenario: one visitor with `updatedAt = 5`. -/
def regC7db : RegDb := ⟨[("visitors", ⟨[regC7doc], 8⟩)]⟩

/-- C7 (counterexample): re-submitting the same email does NOT leave
`updatedAt` unchanged — the stored value moves from 5 to the call's
timestamp 9, refuting the claim that `updatedAt` is untouched. -/
theorem allocate_rerun_changes_updatedAt_cex :
    ((saveRegistration "visitor" ⟨[("email", .vstr "a@x.com")], none⟩ none
        regC7db 9 (fun _ => "TICK-BBBBBB")).map
      fun p => (p.2.get "visitors").docs.map fun d => getField d.fields "updatedAt")
      = .ok [some (.vdate 9)] ∧
    ((saveRegistration "visitor" ⟨[("email", .vstr "a@x.com")], none⟩ none
        regC7db 9 (fun _ => "TICK-BBBBBB")).map
      fun p => (p.2.get "visitors").docs.map fun d => getField d.fields "updatedAt")
      ≠ .ok [some (.vdate 5)] := by
  constructor
  · decide
  · decide

/-- C7 witness: the amended frame theorem applied at the concrete scenario. -/
theorem allocate_existing_email_frame_witness :
    saveRegistration "visitor" ⟨[("email", .vstr "a@x.com")], none⟩ none
        regC7db 9 (fun _ => "TICK-BBBBBB") =
      .ok ({ insertedId := some regC7doc.id,
             doc := some (touchUpdatedAt 9 regC7doc),
             existed := createdBefore (touchUpdatedAt 9 regC7doc).fields 9 },
           regC7db.set "visitors"
             { regC7db.get "visitors" with
               docs := updateFirst (emailMatches "a@x.com") (touchUpdatedAt 9)
                 (regC7db.get "visitors").docs }) :=
  (allocate_existing_email_frame "visitor" ⟨[("email", .vstr "a@x.com")], none⟩
    none regC7db 9 (fun _ => "TICK-BBBBBB") "a@x.com" regC7doc
    (by decide) (by decide) (by decide)).1

/-! ## Claim C9: unknown role names -/

/-- One successful step of the insert loop: no duplicate-key clash means the
document is appended as-is. -/
theorem insertAttempts_no_clash (fuel attempt : Nat) (col : RegCol)
    (base : List (String × FVal)) (rf : Form) (gen : Nat → String) (gi : Nat)
    (h : dupClash col (numProject (ensureCode base gen gi).1) = false) :
    insertAttempts (fuel + 1) attempt col base rf gen gi =
      .ok ({ insertedId := some col.nextId,
             doc := some ⟨col.nextId, numProject (ensureCode base gen gi).1, rf⟩,
             existed := false },
           { docs := col.docs ++
               [⟨col.nextId, numProject (ensureCode base gen gi).1, rf⟩],
             nextId := col.nextId + 1 }) := by
  rcases hec : ensureCode base gen gi with ⟨b1, g1⟩
  rw [hec] at h
  simp only [insertAttempts, hec, h, Bool.false_eq_true, if_false]

set_option maxHeartbeats 1000000

/-- C9 (amended): a role name that does not normalize to one of the five
known roles does NOT fail; `mapTargetCollection` falls back to the derived
normalized (pluralized) collection name with no role, and allocation writes
the record there (shown for a form without email into a previously empty
derived collection). -/
theorem allocate_unknown_role_fallback (name : String) (form : Form)
    (wl : Option (List String)) (db : RegDb) (now : Nat) (gen : Nat → String)
    (hname : name ≠ "")
    (hraw : jsLower (jsTrim name) ≠ "")
    (hunk : (if endsWithS (jsLower (jsTrim name)) then
        dropLastChar (jsLower (jsTrim name))
      else jsLower (jsTrim name)) ∉ knownRoles)
    (hnomail : scanEmail emailCandidates (buildBaseDoc form wl none now) = none)
    (hempty : db.get (mapTargetCollection name).target = ⟨[], 0⟩) :
    mapTargetCollection name =
      ⟨(normalizeCollectionName (jsLower (jsTrim name))).getD (jsLower (jsTrim name)),
       none⟩ ∧
    ∃ d : RegDoc,
      saveRegistration name form wl db now gen =
        .ok ({ insertedId := some 0, doc := some d, existed := false },
             db.set (mapTargetCollection name).target ⟨[d], 1⟩) := by
  have hrole : mapTargetCollection name =
      ⟨(normalizeCollectionName (jsLower (jsTrim name))).getD (jsLower (jsTrim name)),
       none⟩ := by
    simp [mapTargetCollection, hname, hraw, hunk]
  refine ⟨hrole, ?_⟩
  have hrnone : (mapTargetCollection name).role = none := by rw [hrole]
  refine ⟨⟨0, numProject (ensureCode (buildBaseDoc form wl none now) gen 0).1,
    form⟩, ?_⟩
  simp only [saveRegistration, if_neg hname, hrnone, hnomail]
  simp only [hempty]
  rw [insertAttempts_no_clash 5 1 ⟨[], 0⟩ (buildBaseDoc form wl none now) form
    gen 0 (dupClash_nil 0 _)]
  simp [Except.map]

/-- C9 (counterexample): allocating with role name `"admin"` does not raise
any error; it writes one record into the derived collection `"admins"`
(and none into the default `"visitors"`). -/
theorem unknown_role_allocates_cex :
    ((saveRegistration "admin" ⟨[("email", .vstr "b@x.com")], none⟩ none
        ⟨[]⟩ 3 (fun _ => "TICK-CCCCCC")).map
      fun p => ((p.2.get "admins").docs.length,
                (p.2.get "visitors").docs.length,
                p.1.insertedId, p.1.existed))
      = .ok (1, 0, some 0, false) := by decide

/-- C9 witness: the fallback theorem applied at a concrete unknown role
(`"vendor"`, no email in the form, empty store). -/
theorem allocate_unknown_role_fallback_witness :
    mapTargetCollection "vendor" =
      ⟨(normalizeCollectionName (jsLower (jsTrim "vendor"))).getD
         (jsLower (jsTrim "vendor")), none⟩ ∧
    ∃ d : RegDoc,
      saveRegistration "vendor" ⟨[("company", .vstr "Acme")], none⟩ none
          ⟨[]⟩ 4 (fun _ => "TICK-EEEEEE") =
        .ok ({ insertedId := some 0, doc := some d, existed := false },
             RegDb.set ⟨[]⟩ (mapTargetCollection "vendor").target ⟨[d], 1⟩) :=
  allocate_unknown_role_fallback "vendor" ⟨[("company", .vstr "Acme")], none⟩
    none ⟨[]⟩ 4 (fun _ => "TICK-EEEEEE")
    (by decide) (by decide) (by decide) (by decide) (by decide)

/-! ## Claim C2: idempotent allocation -/

/-- C2: a second `saveRegistration` call with a form normalizing to the same
email `E`, made after a successful first call (and at a later timestamp, with
all pre-existing records created earlier), returns the same ticket code and
the same record id as the first call, reports `existed = true`, and does not
change the number of records in the role's collection. -/
theorem allocate_idempotent (cn : String) (form : Form)
    (wl : Option (List String)) (db : RegDb) (t1 t2 : Nat)
    (gen1 gen2 : Nat → String) (E : String) (r1 : SaveResult) (db1 : RegDb)
    (hcn : cn ≠ "")
    (hE : scanEmail emailCandidates
        (buildBaseDoc form wl (mapTargetCollection cn).role t1) = some E)
    (h1 : saveRegistration cn form wl db t1 gen1 = .ok (r1, db1))
    (hcreated : ∀ x ∈ (db.get (mapTargetCollection cn).target).docs,
        ∃ t, getField x.fields "createdAt" = some (.vdate t) ∧ t < t2)
    (ht : t1 < t2) :
    ∃ r2 db2, saveRegistration cn form wl db1 t2 gen2 = .ok (r2, db2) ∧
      r2.existed = true ∧
      r2.insertedId = r1.insertedId ∧
      (r2.doc.bind fun d => getField d.fields "ticket_code") =
        (r1.doc.bind fun d => getField d.fields "ticket_code") ∧
      (db2.get (mapTargetCollection cn).target).docs.length =
        (db1.get (mapTargetCollection cn).target).docs.length := by
  simp only [saveRegistration, if_neg hcn, hE] at h1
  rcases hsoc : setOnInsertCode
    (setField (buildBaseDoc form wl (mapTargetCollection cn).role t1)
      "email" (.vstr E)) gen1 with ⟨soid, gi⟩
  rw [hsoc] at h1
  rcases hup : upsertAttempts 6 1 (db.get (mapTargetCollection cn).target) E
    soid form t1 gen1 gi with e | ⟨rr, cc⟩
  · rw [hup] at h1; simp [Except.map] at h1
  · rw [hup] at h1
    simp only [Except.map, Except.ok.injEq, Prod.mk.injEq] at h1
    obtain ⟨hr1, hdb1⟩ := h1
    subst hr1
    subst hdb1
    have hE2 : scanEmail emailCandidates
        (buildBaseDoc form wl (mapTargetCollection cn).role t2) = some E := by
      rw [scanEmail_buildBaseDoc_time form wl _ t2 t1]; exact hE
    have hspec := upsertAttempts_ok_spec 6 1 _ E soid form t1 gen1 gi rr cc hup
    rcases hspec with ⟨d, hfind, hrr, hcc⟩ | ⟨hnone, nd, hid, hrf, hmail, hcre, hrr, hcc⟩
    · -- the first call matched an existing record
      subst hrr; subst hcc
      have hpd : emailMatches E d = true := List.find?_some hfind
      have hptd : emailMatches E (touchUpdatedAt t1 d) = true := by
        rw [emailMatches_touchUpdatedAt]; exact hpd
      have hfind2 : ((db.set (mapTargetCollection cn).target
            { db.get (mapTargetCollection cn).target with
              docs := updateFirst (emailMatches E) (touchUpdatedAt t1)
                (db.get (mapTargetCollection cn).target).docs }).get
            (mapTargetCollection cn).target).docs.find? (emailMatches E) =
          some (touchUpdatedAt t1 d) := by
        rw [RegDb.get_set]
        exact find?_updateFirst _ _ _ _ hfind hptd
      have h2 := saveRegistration_found_email cn form wl _ t2 gen2 E
        (touchUpdatedAt t1 d) hcn hE2 hfind2
      refine ⟨_, _, h2, ?_, ?_, ?_, ?_⟩
      · obtain ⟨t, hct, hlt⟩ := hcreated d (List.mem_of_find?_eq_some hfind)
        simp only [createdBefore,
          getField_touchUpdatedAt_ne t2 _ "createdAt" (by decide),
          getField_touchUpdatedAt_ne t1 _ "createdAt" (by decide), hct]
        exact decide_eq_true hlt
      · simp [touchUpdatedAt]
      · simp only [Option.some_bind,
          getField_touchUpdatedAt_ne t2 _ "ticket_code" (by decide)]
      · rw [RegDb.get_set, RegDb.get_set]
        simp [length_updateFirst]
    · -- the first call inserted a new record
      subst hrr; subst hcc
      have hpnd : emailMatches E nd = true := by
        simp [emailMatches, hmail]
      have hfind2 : ((db.set (mapTargetCollection cn).target
            ⟨(db.get (mapTargetCollection cn).target).docs ++ [nd],
             (db.get (mapTargetCollection cn).target).nextId + 1⟩).get
            (mapTargetCollection cn).target).docs.find? (emailMatches E) =
          some nd := by
        rw [RegDb.get_set]
        rw [find?_append_of_none _ _ _ hnone]
        simp [List.find?_cons_of_pos _ hpnd]
      have h2 := saveRegistration_found_email cn form wl _ t2 gen2 E nd
        hcn hE2 hfind2
      have hsoid : soid = (setOnInsertCode
          (setField (buildBaseDoc form wl (mapTargetCollection cn).role t1)
            "email" (.vstr E)) gen1).1 := by rw [hsoc]
      have hndcre : getField nd.fields "createdAt" = some (.vdate t1) := by
        rw [hcre, hsoid,
          getField_setOnInsertCode_ne _ _ _ (by decide) (by decide),
          getField_setField, if_neg (by decide),
          getField_buildBaseDoc_createdAt]
      refine ⟨_, _, h2, ?_, ?_, ?_, ?_⟩
      · simp only [createdBefore,
          getField_touchUpdatedAt_ne t2 _ "createdAt" (by decide), hndcre]
        exact decide_eq_true ht
      · simp [touchUpdatedAt]
      · simp only [Option.some_bind,
          getField_touchUpdatedAt_ne t2 _ "ticket_code" (by decide)]
      · rw [RegDb.get_set, RegDb.get_set]
        simp [length_updateFirst]

/-- The record created by the first allocation of the C2 scenario. -/
def regC2doc : RegDoc :=
  ⟨0, [("email", .vstr "c@x.com"), ("updatedAt", .vdate 10),
       ("createdAt", .vdate 10), ("role", .vstr "visitor"),
       ("ticket_code", .vstr "TICK-DDDDDD")],
   ⟨[("email", .vstr "c@x.com")], none⟩⟩

/-- C2 witness: the idempotence theorem applied to a concrete first call at
time 10 and a second call at time 20. -/
theorem allocate_idempotent_witness :
    ∃ r2 db2,
      saveRegistration "visitor" ⟨[("email", .vstr "c@x.com")], none⟩ none
          ⟨[("visitors", ⟨[regC2doc], 1⟩)]⟩ 20 (fun _ => "TICK-EEEEEE") =
        .ok (r2, db2) ∧
      r2.existed = true ∧
      r2.insertedId =
        (SaveResult.mk (some 0) (some regC2doc) false).insertedId ∧
      (r2.doc.bind fun d => getField d.fields "ticket_code") =
        ((SaveResult.mk (some 0) (some regC2doc) false).doc.bind
          fun d => getField d.fields "ticket_code") ∧
      (db2.get (mapTargetCollection "visitor").target).docs.length =
        ((RegDb.mk [("visitors", ⟨[regC2doc], 1⟩)]).get
          (mapTargetCollection "visitor").target).docs.length :=
  allocate_idempotent "visitor" ⟨[("email", .vstr "c@x.com")], none⟩ none
    ⟨[]⟩ 10 20 (fun _ => "TICK-DDDDDD") (fun _ => "TICK-EEEEEE") "c@x.com"
    (SaveResult.mk (some 0) (some regC2doc) false)
    ⟨[("visitors", ⟨[regC2doc], 1⟩)]⟩
    (by decide) (by decide) (by decide)
    (fun x hx => absurd hx (List.not_mem_nil x))
    (by decide)

/-! ## Coupon ledger (coupon routers, parts 005 and 006)

Coupons live in the `coupons` collection; every consumption appends a
best-effort entry to `coupon_logs`.  Monetary math is kept exact in `ℚ`
(the JS `toFixed(2)` float rounding of `reducedPrice` is not modelled; no
claim concerns it). -/

/-- A stored coupon.  `used` is `Option Bool` because Mongo's
`used: { $ne: true }` filter also matches documents lacking the field. -/
structure Coupon where
  id : Nat
  code : String
  discount : ℚ
  used : Option Bool
  used_at : Option Nat
  used_by : Option String
deriving DecidableEq

/-- A `coupon_logs` entry (only the discriminating fields are modelled). -/
structure CLog where
  type : String
  code : String
deriving DecidableEq

/-- Coupon store: the `coupons` and `coupon_logs` collections. -/
structure CouponDb where
  coupons : List Coupon
  logs : List CLog
deriving DecidableEq

/-- The consume filter `{ code: <normalized>, used: { $ne: true } }`. -/
def couponMatches (norm : String) (c : Coupon) : Bool :=
  c.code = norm && c.used ≠ some true

/-- `$set: { used: true, used_at: now, used_by: consumer }`. -/
def markUsed (now : Nat) (consumer : String) (c : Coupon) : Coupon :=
  { c with used := some true, used_at := some now, used_by := some consumer }

/-- Replace the first coupon satisfying `p`. -/
def updateFirstCoupon (p : Coupon → Bool) (f : Coupon → Coupon) :
    List Coupon → List Coupon
  | [] => []
  | c :: cs => if p c then f c :: cs else c :: updateFirstCoupon p f cs

/-- The atomic conditional update shared by the consuming
`POST /coupons/validate` (part_006 lines 157–167) and the coupon branch of
`POST /tickets/upgrade` (tickets-upgrade.js lines 212–216):
`findOneAndUpdate({code, used≠true}, {$set: {used, used_at, used_by}},
{returnDocument:'after'})`. -/
def consumeCoupon (cs : List Coupon) (rawCode : String) (now : Nat)
    (consumer : String) : Option Coupon × List Coupon :=
  match cs.find? (couponMatches (jsUpper (jsTrim rawCode))) with
  | some c =>
    (some (markUsed now consumer c),
     updateFirstCoupon (couponMatches (jsUpper (jsTrim rawCode)))
       (markUsed now consumer) cs)
  | none => (none, cs)

/-- Truthiness of the stored `used` value (`if (existingCoupon.used)`). -/
def usedTruthy (c : Coupon) : Bool :=
  match c.used with
  | some b => b
  | none => false

/-- Response of the consuming `POST /coupons/validate` (part_006). -/
inductive ConsumeResp where
  | badRequest
  | invalid
  | valid (discount : ℚ) (reducedPrice : Option ℚ) (id : Nat) (code : String)
deriving DecidableEq

/-- `POST /coupons/validate` of part_006 (lines 143–208): the coupon is
atomically marked used; a `use` log entry is appended on success. -/
def couponsValidateConsume (codeParam : Option String) (price : Option ℚ)
    (db : CouponDb) (now : Nat) : ConsumeResp × CouponDb :=
  match codeParam with
  | none => (.badRequest, db)
  | some s =>
    if s = "" then (.badRequest, db)
    else
      match consumeCoupon db.coupons s now "user" with
      | (none, cs) => (.invalid, { db with coupons := cs })
      | (some c, cs) =>
        (.valid c.discount
           (price.map fun p => max 0 (p - p * (c.discount / 100)))
           c.id c.code,
         { coupons := cs, logs := db.logs ++ [⟨"use", c.code⟩] })

/-- Response of the read-only `POST /coupons/validate` (part_005). -/
inductive PeekResp where
  | badRequest
  | notFound
  | alreadyUsed
  | valid (discount : ℚ) (reducedPrice : Option ℚ) (id : Nat) (code : String)
deriving DecidableEq

/-- `POST /coupons/validate` of part_005 (lines 201–241): pure lookup, no
write (`reducedPrice` only when a positive numeric price is supplied). -/
def couponsValidatePeek (codeParam : Option String) (price : Option ℚ)
    (db : CouponDb) : PeekResp × CouponDb :=
  match codeParam with
  | none => (.badRequest, db)
  | some s =>
    if s = "" then (.badRequest, db)
    else
      match db.coupons.find? (fun x => x.code = jsUpper (jsTrim s)) with
      | none => (.notFound, db)
      | some c =>
        if usedTruthy c then (.alreadyUsed, db)
        else
          (.valid c.discount
             (match price with
              | some p => if 0 < p then some (max 0 (p - p * (c.discount / 100)))
                          else none
              | none => none)
             c.id c.code,
           db)

/-- A marked-used coupon no longer matches the consume filter. -/
theorem couponMatches_markUsed (norm : String) (now : Nat) (u : String)
    (c : Coupon) : couponMatches norm (markUsed now u c) = false := by
  simp [couponMatches, markUsed]

/-- After the unique code-holder is marked used, the consume filter matches
nothing. -/
theorem find?_updateFirstCoupon_none (norm : String) (now : Nat) (u : String)
    (cs : List Coupon) (c : Coupon)
    (hf : cs.find? (couponMatches norm) = some c)
    (huniq : (cs.filter fun x => x.code = norm).length ≤ 1) :
    (updateFirstCoupon (couponMatches norm) (markUsed now u) cs).find?
      (couponMatches norm) = none := by
  induction cs with
  | nil => simp at hf
  | cons a cs ih =>
    by_cases ha : couponMatches norm a = true
    · have hcode : a.code = norm := by
        have := ha
        unfold couponMatches at this
        exact of_decide_eq_true (Bool.and_elim_left this)
      have hrest : ∀ x ∈ cs, ¬(x.code = norm) := by
        intro x hx
        have hlen : (cs.filter fun x => x.code = norm).length = 0 := by
          have hd : (decide (a.code = norm)) = true := decide_eq_true hcode
          simp only [List.filter_cons, hd, if_true, List.length_cons] at huniq
          omega
        intro hxc
        have : x ∈ cs.filter fun x => x.code = norm :=
          List.mem_filter.mpr ⟨hx, decide_eq_true hxc⟩
        rw [List.length_eq_zero] at hlen
        rw [hlen] at this
        exact List.not_mem_nil x this

      simp only [updateFirstCoupon, if_pos ha]
      rw [List.find?_cons_of_neg _ (by rw [couponMatches_markUsed]; exact Bool.false_ne_true)]
      cases hcs : cs.find? (couponMatches norm) with
      | none => rfl
      | some y =>
        have hy := List.find?_some hcs
        have hymem := List.mem_of_find?_eq_some hcs
        have : y.code = norm := by
          unfold couponMatches at hy
          exact of_decide_eq_true (Bool.and_elim_left hy)
        exact absurd this (hrest y hymem)
    · rw [List.find?_cons_of_neg _ ha] at hf
      have huniq' : (cs.filter fun x => x.code = norm).length ≤ 1 := by
        by_cases hc : a.code = norm
        · have hd : (decide (a.code = norm)) = true := decide_eq_true hc
          simp only [List.filter_cons, hd, if_true, List.length_cons] at huniq
          omega
        · have hd : (decide (a.code = norm)) = false := decide_eq_false hc
          simpa only [List.filter_cons, hd, if_false] using huniq
      simp only [updateFirstCoupon, if_neg ha]
      rw [List.find?_cons_of_neg _ ha]
      exact ih hf huniq'

/-! ## Claim C1: atomic single-use coupon consumption -/

/-- C1: consumption is the single conditional update
"set `used/used_at/used_by` where `code` matches (trimmed, upper-cased) and
`used ≠ true`", returning the post-update document only on a match; after one
successful consume, a second consume of the same code fails (`valid:false`)
and changes nothing, and consuming an absent (or already-used) code fails
and changes nothing. -/
theorem coupon_consume_single_use (db : CouponDb) (s : String)
    (p1 p2 : Option ℚ) (t1 t2 : Nat)
    (hs : s ≠ "")
    (huniq : (db.coupons.filter fun x => x.code = jsUpper (jsTrim s)).length ≤ 1) :
    (∀ c, db.coupons.find? (couponMatches (jsUpper (jsTrim s))) = some c →
       couponsValidateConsume (some s) p1 db t1 =
         (.valid c.discount
            (p1.map fun p => max 0 (p - p * (c.discount / 100)))
            c.id c.code,
          ⟨updateFirstCoupon (couponMatches (jsUpper (jsTrim s)))
             (markUsed t1 "user") db.coupons,
           db.logs ++ [⟨"use", c.code⟩]⟩) ∧
       couponsValidateConsume (some s) p2
         ⟨updateFirstCoupon (couponMatches (jsUpper (jsTrim s)))
            (markUsed t1 "user") db.coupons,
          db.logs ++ [⟨"use", c.code⟩]⟩ t2 =
         (.invalid,
          ⟨updateFirstCoupon (couponMatches (jsUpper (jsTrim s)))
             (markUsed t1 "user") db.coupons,
           db.logs ++ [⟨"use", c.code⟩]⟩)) ∧
    (db.coupons.find? (couponMatches (jsUpper (jsTrim s))) = none →
       couponsValidateConsume (some s) p1 db t1 = (.invalid, db)) := by
  constructor
  · intro c hc
    constructor
    · simp only [couponsValidateConsume, if_neg hs, consumeCoupon, hc]
      rfl
    · have h2 := find?_updateFirstCoupon_none (jsUpper (jsTrim s)) t1 "user"
        db.coupons c hc huniq
      simp only [couponsValidateConsume, if_neg hs, consumeCoupon, h2]
  · intro hn
    simp only [couponsValidateConsume, if_neg hs, consumeCoupon, hn]

/-- The store of Scenario B: one unused coupon `SAVE10` worth 10%. -/
def scenBdb : CouponDb := ⟨[⟨1, "SAVE10", 10, some false, none, none⟩], []⟩

/-- C1 witness: Scenario B — `consume("SAVE10")` succeeds with discount 10;
consuming again fails and leaves the store unchanged. -/
theorem coupon_consume_single_use_witness :
    couponsValidateConsume (some "SAVE10") (some 100) scenBdb 3 =
      (.valid (10 : ℚ)
         ((some (100 : ℚ)).map fun p => max 0 (p - p * ((10 : ℚ) / 100)))
         1 "SAVE10",
       ⟨updateFirstCoupon (couponMatches (jsUpper (jsTrim "SAVE10")))
          (markUsed 3 "user") scenBdb.coupons,
        scenBdb.logs ++ [⟨"use", "SAVE10"⟩]⟩) ∧
    couponsValidateConsume (some "SAVE10") none
      ⟨updateFirstCoupon (couponMatches (jsUpper (jsTrim "SAVE10")))
         (markUsed 3 "user") scenBdb.coupons,
       scenBdb.logs ++ [⟨"use", "SAVE10"⟩]⟩ 4 =
      (.invalid,
       ⟨updateFirstCoupon (couponMatches (jsUpper (jsTrim "SAVE10")))
          (markUsed 3 "user") scenBdb.coupons,
        scenBdb.logs ++ [⟨"use", "SAVE10"⟩]⟩) :=
  (coupon_consume_single_use scenBdb "SAVE10" (some 100) none 3 4
    (by decide) (by decide)).1
    ⟨1, "SAVE10", 10, some false, none, none⟩ (by decide)

/-! ## Claim C6: the two validate variants -/

/-- C6 (amended): the part_005 `POST /coupons/validate` is a read-only peek:
it never changes the store, reports not-found / already-used as
`valid:false`, and otherwise reports the discount.  (The part_006 variant of
the same endpoint instead consumes atomically — see the counterexample.) -/
theorem coupon_validate_peek_readonly (codeParam : Option String)
    (price : Option ℚ) (db : CouponDb) :
    (couponsValidatePeek codeParam price db).2 = db ∧
    (∀ s, codeParam = some s → s ≠ "" →
       db.coupons.find? (fun x => x.code = jsUpper (jsTrim s)) = none →
       (couponsValidatePeek codeParam price db).1 = .notFound) ∧
    (∀ s c, codeParam = some s → s ≠ "" →
       db.coupons.find? (fun x => x.code = jsUpper (jsTrim s)) = some c →
       (usedTruthy c = true →
          (couponsValidatePeek codeParam price db).1 = .alreadyUsed) ∧
       (usedTruthy c = false →
          (couponsValidatePeek codeParam price db).1 =
            .valid c.discount
              (match price with
               | some p => if 0 < p then some (max 0 (p - p * (c.discount / 100)))
                           else none
               | none => none) c.id c.code)) := by
  refine ⟨?_, ?_, ?_⟩
  · cases codeParam with
    | none => rfl
    | some s =>
      by_cases hs : s = ""
      · simp [couponsValidatePeek, hs]
      · cases hfind : db.coupons.find? (fun x => x.code = jsUpper (jsTrim s)) with
        | none => simp [couponsValidatePeek, hs, hfind]
        | some c =>
          by_cases hu : usedTruthy c = true <;>
            simp [couponsValidatePeek, hs, hfind, hu]
  · intro s hp hs hn
    subst hp
    simp [couponsValidatePeek, hs, hn]
  · intro s c hp hs hfind
    subst hp
    constructor <;> intro hu <;> simp [couponsValidatePeek, hs, hfind, hu]

/-- The store used by the C6 scenario: one unused coupon. -/
def peekDb : CouponDb := ⟨[⟨2, "SAVE10", 10, some false, none, none⟩], []⟩

/-- C6 (counterexample): the part_006 `POST /coupons/validate` variant is NOT
read-only — validating an unused coupon flips its `used` to `true`. -/
theorem coupon_validate_consumes_cex :
    (peekDb.coupons.map fun c => c.used) = [some false] ∧
    (((couponsValidateConsume (some "SAVE10") none peekDb 5).2.coupons.map
      fun c => c.used)) = [some true] :=
  ⟨by decide, by decide⟩

/-- C6 witness: the read-only peek applied to the concrete store. -/
theorem coupon_validate_peek_readonly_witness :
    (couponsValidatePeek (some "SAVE10") (some 100) peekDb).2 = peekDb ∧
    (couponsValidatePeek (some "SAVE10") (some 100) peekDb).1 =
      .valid (10 : ℚ) (some (max 0 ((100 : ℚ) - 100 * ((10 : ℚ) / 100))))
        2 "SAVE10" := by
  refine ⟨(coupon_validate_peek_readonly (some "SAVE10") (some 100) peekDb).1, ?_⟩
  have h := ((coupon_validate_peek_readonly (some "SAVE10") (some 100)
      peekDb).2.2 "SAVE10" ⟨2, "SAVE10", 10, some false, none, none⟩ rfl
      (by decide) (by decide)).2 (by decide)
  rw [h]
  exact rfl

/-! ## Upgrade transactor (routes/tickets-upgrade.js)

External collaborators are explicit parameters: the payment-order service
result (`payResult`: `none` = order creation failed, `some url` = success
with the returned checkout url), the mail dispatch result (`emailOk`), and
the ticket-code generator output (`genCode`).  The `if (!ticketDoc)`
re-insert fallback (lines 273–294) guards against a driver returning no
document from an upserting `findOneAndUpdate`; in this sequential store
model that upsert always yields the post-update document, so the fallback
is unreachable and the upsert is modelled as total. -/

/-- A registrant document as read by the upgrade route (only the fields the
route touches). -/
structure Entity where
  id : String
  email : Option String := none
  contactEmail : Option String := none
  dataEmail : Option String := none
  name : Option String := none
  fullName : Option String := none
  company : Option String := none
  ticket_category : Option String := none
  category : Option String := none
  ticket_code : Option String := none
  code : Option String := none
  upgradedAt : Option Nat := none
  txId : Option String := none
  paymentMethod : Option String := none
  ticket_email_sent_at : Option Nat := none
  last_email_type : Option String := none
  ticket_email_failed : Option Bool := none
  ticket_email_failed_at : Option Nat := none
deriving DecidableEq

/-- The `meta` sub-document of a ticket record. -/
structure TicketMeta where
  upgradedFrom : String
  upgradedAt : Nat
  previousCategory : Option String
deriving DecidableEq

/-- A `tickets` collection document. -/
structure Ticket where
  entity_type : String
  entity_id : String
  name : Option String
  email : Option String
  company : Option String
  category : String
  txId : Option String
  paymentMethod : String
  meta : TicketMeta
  createdAt : Nat
  updatedAt : Nat
  ticket_code : String
deriving DecidableEq

/-- The store seen by the upgrade route. -/
structure UpDb where
  entityCols : List (String × List Entity)
  tickets : List Ticket
  coupons : List Coupon
  couponLogs : List CLog
deriving DecidableEq

def getEnts : List (String × List Entity) → String → List Entity
  | [], _ => []
  | p :: ps, n => if p.1 = n then p.2 else getEnts ps n

def setEnts : List (String × List Entity) → String → List Entity →
    List (String × List Entity)
  | [], n, es => [(n, es)]
  | p :: ps, n, es => if p.1 = n then (n, es) :: ps else p :: setEnts ps n es

def updateFirstTicket (p : Ticket → Bool) (f : Ticket → Ticket) :
    List Ticket → List Ticket
  | [] => []
  | t :: ts => if p t then f t :: ts else t :: updateFirstTicket p f ts

def updateFirstEntity (p : Entity → Bool) (f : Entity → Entity) :
    List Entity → List Entity
  | [] => []
  | e :: es => if p e then f e :: es else e :: updateFirstEntity p f es

/-- JS `a || b` on an optional string against a string default. -/
def jsOrS (a : Option String) (b : String) : String :=
  match a with
  | some s => if s = "" then b else s
  | none => b

/-- JS `a || b` keeping an optional result (`x || y || null` chains). -/
def jsOrN (a : Option String) (b : Option String) : Option String :=
  match a with
  | some s => if s = "" then b else some s
  | none => b

/-- Is the optional string truthy? -/
def strTruthy (o : Option String) : Bool :=
  match o with
  | some s => s ≠ ""
  | none => false

/-- `normalizeEmail` of tickets-upgrade.js (lines 34–40). -/
def normalizeEmail (e : String) : String := jsLower (jsTrim e)

/-- The stored email used for authorization (line 108):
`entityRow.email || entityRow.contactEmail || entityRow.data?.email || ""`,
normalized. -/
def storedEmailOf (e : Entity) : String :=
  normalizeEmail (jsOrS e.email (jsOrS e.contactEmail (jsOrS e.dataEmail "")))

def ALLOWED_ENTITIES : List String :=
  ["speakers", "awardees", "exhibitors", "partners", "visitors"]

/-- The request body of `POST /tickets/upgrade`. -/
structure UpgradeReq where
  entity_type : Option String
  entity_id : Option String
  new_category : Option String
  amount : Option Int
  email : Option String
  txId : Option String
  method : Option String
  couponCode : Option String
deriving DecidableEq

/-- Responses of `POST /tickets/upgrade` (the `db`-unavailable 500 is not
modelled: the store is always present here). -/
inductive UpgradeResp where
  | missingFields
  | entityNotAllowed
  | notFound
  | forbiddenNoEmail
  | forbiddenMismatch
  | paymentFailed
  | paymentRequired (checkoutUrl : Option String)
  | couponInvalid
  | upgraded (ticket_code : Option String) (category : String)
deriving DecidableEq

/-- The `$set` part of the ticket upsert (lines 242–258), applied to an
existing ticket; `ticket_code` and `createdAt` live in `$setOnInsert` and
are untouched. -/
def applyTicketSet (e : Entity) (et idv cat : String) (txv : Option String)
    (pm : String) (now : Nat) (t : Ticket) : Ticket :=
  { t with
    entity_type := et
    entity_id := idv
    name := jsOrN e.name (jsOrN e.fullName (jsOrN e.company none))
    email := if storedEmailOf e = "" then none else some (storedEmailOf e)
    company := jsOrN e.company none
    category := cat
    txId := txv
    paymentMethod := pm
    meta := ⟨"self-service", now, jsOrN e.ticket_category (jsOrN e.category none)⟩
    updatedAt := now }

/-- A freshly upserted ticket (filter fields + `$set` + `$setOnInsert`). -/
def newTicketDoc (e : Entity) (et idv cat : String) (txv : Option String)
    (pm : String) (now : Nat) (tcode : String) : Ticket :=
  applyTicketSet e et idv cat txv pm now
    { entity_type := et, entity_id := idv, name := none, email := none,
      company := none, category := cat, txId := txv, paymentMethod := pm,
      meta := ⟨"self-service", now, none⟩, createdAt := now, updatedAt := now,
      ticket_code := tcode }

/-- The upsert filter `{ entity_type, entity_id }` (line 238). -/
def ticketFilter (et idv : String) (t : Ticket) : Bool :=
  t.entity_type = et && t.entity_id = idv

/-- The entity sync `$set` (lines 310–318). -/
def applyEntitySync (cat : String) (finalCode : Option String)
    (txv : Option String) (pmOrNull : Option String) (now : Nat)
    (e : Entity) : Entity :=
  { e with
    ticket_category := some cat
    ticket_code := finalCode
    upgradedAt := some now
    txId := txv
    paymentMethod := pmOrNull }

/-- The delivery-status write after the ticket email (lines 360–380). -/
def applyEmailStatus (emailOk : Bool) (now : Nat) (e : Entity) : Entity :=
  if emailOk then
    { e with ticket_email_sent_at := some now,
             last_email_type := some "upgrade_confirmation",
             ticket_email_failed := none }
  else
    { e with ticket_email_failed := some true,
             ticket_email_failed_at := some now }

/-- `const providedEmail = email ? normalizeEmail(email) : ""` (line 115). -/
def providedEmailOf (req : UpgradeReq) : String :=
  if strTruthy req.email then normalizeEmail (req.email.getD "") else ""

/-- The ticket upsert stage (lines 236–297): find the ticket by
`(entity_type, entity_id)`; when present, `$set` rewrites its mutable fields
and `$setOnInsert` leaves `ticket_code`/`createdAt` alone; when absent a new
document with a generated code is inserted.  Returns the post-update
document and the new collection. -/
def ticketUpsert (tickets : List Ticket) (entityRow : Entity)
    (et idv cat : String) (txv : Option String) (pmFree : String)
    (now : Nat) (genCode : String) : Ticket × List Ticket :=
  match tickets.find? (ticketFilter et idv) with
  | some t =>
    (applyTicketSet entityRow et idv cat txv pmFree now t,
     updateFirstTicket (ticketFilter et idv)
       (applyTicketSet entityRow et idv cat txv pmFree now) tickets)
  | none =>
    (newTicketDoc entityRow et idv cat txv pmFree now genCode,
     tickets ++ [newTicketDoc entityRow et idv cat txv pmFree now genCode])

/-- The post-payment stage of `POST /tickets/upgrade`: coupon validate &
burn (lines 210–234), ticket upsert (236–297), `finalTicketCode`
(299–302), entity sync (304–323), and the email delivery-status write
(342–384). -/
def upgradeApply (req : UpgradeReq) (db : UpDb) (now : Nat)
    (genCode : String) (emailOk : Bool) (et0 idv cat : String)
    (entityRow : Entity) : UpgradeResp × UpDb :=
  match
    (if strTruthy req.couponCode then
      match consumeCoupon db.coupons (req.couponCode.getD "") now
          (if storedEmailOf entityRow = "" then idv
           else storedEmailOf entityRow) with
      | (none, _) => none
      | (some _, cs) =>
        some { db with
               coupons := cs,
               couponLogs := db.couponLogs ++
                 [⟨"use_on_upgrade",
                   jsUpper (jsTrim (req.couponCode.getD ""))⟩] }
    else some db) with
  | none => (.couponInvalid, db)
  | some db1 =>
    let et := jsLower et0
    let txv := if strTruthy req.txId then req.txId else none
    let pm := jsOrS req.method "online"
    let pmFree := if pm = "" then "free" else pm
    let upserted := ticketUpsert db1.tickets entityRow et idv cat txv pmFree
      now genCode
    let finalCode :=
      jsOrN (some upserted.1.ticket_code)
        (jsOrN entityRow.ticket_code (jsOrN entityRow.code none))
    let pmOrNull := if pm = "" then none else some pm
    let ents1 :=
      updateFirstEntity (fun e => e.id = idv)
        (applyEntitySync cat finalCode txv pmOrNull now)
        (getEnts db1.entityCols et)
    let ents2 :=
      if storedEmailOf entityRow = "" then ents1
      else
        updateFirstEntity (fun e => e.id = idv)
          (applyEmailStatus emailOk now) ents1
    (.upgraded finalCode cat,
     { db1 with
       tickets := upserted.2,
       entityCols := setEnts db1.entityCols et ents2 })

/-- `POST /tickets/upgrade` (tickets-upgrade.js lines 55–406): input
validation, entity lookup, email authorization, the two-phase payment
branch, then `upgradeApply`. -/
def ticketsUpgrade (req : UpgradeReq) (db : UpDb) (now : Nat)
    (genCode : String) (payResult : Option (Option String)) (emailOk : Bool) :
    UpgradeResp × UpDb :=
  if !(strTruthy req.entity_type) || !(strTruthy req.entity_id) ||
      !(strTruthy req.new_category) then (.missingFields, db)
  else
    match req.entity_type, req.entity_id, req.new_category with
    | some et0, some idv, some cat =>
      if !(ALLOWED_ENTITIES.contains (jsLower et0)) then (.entityNotAllowed, db)
      else
        match (getEnts db.entityCols (jsLower et0)).find? (fun e => e.id = idv) with
        | none => (.notFound, db)
        | some entityRow =>
          if storedEmailOf entityRow = "" then (.forbiddenNoEmail, db)
          else
            if providedEmailOf req ≠ "" &&
               providedEmailOf req ≠ storedEmailOf entityRow then
              (.forbiddenMismatch, db)
            else
              if 0 < req.amount.getD 0 && !(strTruthy req.txId) then
                match payResult with
                | none => (.paymentFailed, db)
                | some url => (.paymentRequired url, db)
              else upgradeApply req db now genCode emailOk et0 idv cat entityRow
    | _, _, _ => (.missingFields, db)

/-! ## Claim C8: upgrade email authorization -/

/-- Reduce `ticketsUpgrade` past input validation and entity lookup. -/
theorem ticketsUpgrade_entry (req : UpgradeReq) (db : UpDb) (now : Nat)
    (g : String) (pay : Option (Option String)) (ok : Bool)
    (et0 idv cat : String) (entityRow : Entity)
    (h1 : req.entity_type = some et0) (h2 : req.entity_id = some idv)
    (h3 : req.new_category = some cat)
    (hT1 : et0 ≠ "") (hT2 : idv ≠ "") (hT3 : cat ≠ "")
    (hallow : ALLOWED_ENTITIES.contains (jsLower et0) = true)
    (hfind : (getEnts db.entityCols (jsLower et0)).find? (fun e => e.id = idv)
      = some entityRow) :
    ticketsUpgrade req db now g pay ok =
      (if storedEmailOf entityRow = "" then (.forbiddenNoEmail, db)
       else
         if providedEmailOf req ≠ "" &&
            providedEmailOf req ≠ storedEmailOf entityRow then
           (.forbiddenMismatch, db)
         else
           if 0 < req.amount.getD 0 && !(strTruthy req.txId) then
             match pay with
             | none => (.paymentFailed, db)
             | some url => (.paymentRequired url, db)
           else upgradeApply req db now g ok et0 idv cat entityRow) := by
  have hb1 : strTruthy (some et0) = true := by simp [strTruthy, hT1]
  have hb2 : strTruthy (some idv) = true := by simp [strTruthy, hT2]
  have hb3 : strTruthy (some cat) = true := by simp [strTruthy, hT3]
  simp only [ticketsUpgrade, hb1, hb2, hb3, h1, h2, h3, hallow,
    Bool.not_true, Bool.or_self, Bool.or_false, Bool.false_or,
    Bool.false_eq_true, if_false, hfind]

/-- The post-payment stage only ever answers `couponInvalid` or `upgraded`. -/
theorem upgradeApply_shape (req : UpgradeReq) (db : UpDb) (now : Nat)
    (g : String) (ok : Bool) (et0 idv cat : String) (entityRow : Entity) :
    (upgradeApply req db now g ok et0 idv cat entityRow).1 = .couponInvalid ∨
    ∃ tc c, (upgradeApply req db now g ok et0 idv cat entityRow).1 =
      .upgraded tc c := by
  unfold upgradeApply
  cases h : (if strTruthy req.couponCode then
      match consumeCoupon db.coupons (req.couponCode.getD "") now
          (if storedEmailOf entityRow = "" then idv
           else storedEmailOf entityRow) with
      | (none, _) => none
      | (some _, cs) =>
        some { db with
               coupons := cs,
               couponLogs := db.couponLogs ++
                 [⟨"use_on_upgrade",
                   jsUpper (jsTrim (req.couponCode.getD ""))⟩] }
    else some db) with
  | none => left; rfl
  | some db1 => right; exact ⟨_, _, rfl⟩

/-- C8 (amended): with valid inputs and a found registrant, the upgrade
(1) fails 403 when the registrant has no non-empty stored email, (2) fails
403 when the caller-supplied email normalizes to a NON-EMPTY string that
differs from the stored one — in both cases leaving the store untouched —
and (3) passes authorization otherwise (no supplied email, a matching one,
or one that normalizes to empty, which the code treats as absent). -/
theorem upgrade_email_authorization (req : UpgradeReq) (db : UpDb) (now : Nat)
    (g : String) (pay : Option (Option String)) (ok : Bool)
    (et0 idv cat : String) (entityRow : Entity)
    (h1 : req.entity_type = some et0) (h2 : req.entity_id = some idv)
    (h3 : req.new_category = some cat)
    (hT1 : et0 ≠ "") (hT2 : idv ≠ "") (hT3 : cat ≠ "")
    (hallow : ALLOWED_ENTITIES.contains (jsLower et0) = true)
    (hfind : (getEnts db.entityCols (jsLower et0)).find? (fun e => e.id = idv)
      = some entityRow) :
    (storedEmailOf entityRow = "" →
       ticketsUpgrade req db now g pay ok = (.forbiddenNoEmail, db)) ∧
    (storedEmailOf entityRow ≠ "" →
     providedEmailOf req ≠ "" →
     providedEmailOf req ≠ storedEmailOf entityRow →
       ticketsUpgrade req db now g pay ok = (.forbiddenMismatch, db)) ∧
    (storedEmailOf entityRow ≠ "" →
     (providedEmailOf req = "" ∨
      providedEmailOf req = storedEmailOf entityRow) →
       (ticketsUpgrade req db now g pay ok).1 ≠ .forbiddenNoEmail ∧
       (ticketsUpgrade req db now g pay ok).1 ≠ .forbiddenMismatch) := by
  rw [ticketsUpgrade_entry req db now g pay ok et0 idv cat entityRow
    h1 h2 h3 hT1 hT2 hT3 hallow hfind]
  refine ⟨?_, ?_, ?_⟩
  · intro hse
    rw [if_pos hse]
  · intro hse hne1 hne2
    rw [if_neg hse, if_pos (by simp [hne1, hne2])]
  · intro hse hor
    have hcond : (providedEmailOf req ≠ "" &&
        providedEmailOf req ≠ storedEmailOf entityRow) = false := by
      rcases hor with h | h <;> simp [h]
    rw [if_neg hse, hcond]
    simp only [Bool.false_eq_true, if_false]
    by_cases hpayb : (0 < req.amount.getD 0 && !(strTruthy req.txId)) = true
    · rw [if_pos hpayb]
      cases pay <;> exact ⟨by simp, by simp⟩
    · rw [if_neg hpayb]
      rcases upgradeApply_shape req db now g ok et0 idv cat entityRow with
        h | ⟨tc, c, h⟩ <;> rw [h] <;> exact ⟨by simp, by simp⟩

/-- The registrant of the upgrade-route scenarios. -/
def authEnt : Entity := { id := "v1", email := some "a@x.com" }

/-- Store with one visitor and nothing else. -/
def authDb : UpDb := ⟨[("visitors", [authEnt])], [], [], []⟩

/-- C8 (counterexample): a supplied email of `" "` normalizes to `""`, which
differs from the stored email — the claim demands Forbidden — yet the code
treats it as absent and performs the upgrade. -/
theorem upgrade_whitespace_email_passes_cex :
    normalizeEmail " " ≠ storedEmailOf authEnt ∧
    (ticketsUpgrade
        ⟨some "visitors", some "v1", some "delegate", some 0, some " ",
         none, none, none⟩ authDb 7 "TICK-NEW" none true).1 =
      .upgraded (some "TICK-NEW") "delegate" :=
  ⟨by decide, by decide⟩

/-- C8 witness: the authorization theorem applied to a concrete mismatching
email (`"B@Y.com"` against stored `"a@x.com"`). -/
theorem upgrade_email_authorization_witness :
    ticketsUpgrade
        ⟨some "visitors", some "v1", some "delegate", some 0,
         some "B@Y.com", none, none, none⟩ authDb 7 "T" none true =
      (.forbiddenMismatch, authDb) :=
  (upgrade_email_authorization
    ⟨some "visitors", some "v1", some "delegate", some 0, some "B@Y.com",
     none, none, none⟩ authDb 7 "T" none true "visitors" "v1" "delegate"
    authEnt rfl rfl rfl (by decide) (by decide) (by decide) (by decide)
    (by decide)).2.1 (by decide) (by decide) (by decide)

/-! ## Claim C4: quote-call purity -/

/-- C4: an authorized upgrade request with `amount > 0` and no `txId` takes
the payment branch before any write: on payment-order success it answers
`paymentRequired` with the checkout url, on failure 502 — and in both cases
the whole store (tickets, registrants, coupons, logs) is returned exactly as
it was, so a supplied `couponCode` is not consumed. -/
theorem upgrade_quote_pure (req : UpgradeReq) (db : UpDb) (now : Nat)
    (g : String) (ok : Bool) (et0 idv cat : String) (entityRow : Entity)
    (url : Option String)
    (h1 : req.entity_type = some et0) (h2 : req.entity_id = some idv)
    (h3 : req.new_category = some cat)
    (hT1 : et0 ≠ "") (hT2 : idv ≠ "") (hT3 : cat ≠ "")
    (hallow : ALLOWED_ENTITIES.contains (jsLower et0) = true)
    (hfind : (getEnts db.entityCols (jsLower et0)).find? (fun e => e.id = idv)
      = some entityRow)
    (hse : storedEmailOf entityRow ≠ "")
    (hp : providedEmailOf req = "" ∨
      providedEmailOf req = storedEmailOf entityRow)
    (hamt : 0 < req.amount.getD 0)
    (htx : strTruthy req.txId = false) :
    ticketsUpgrade req db now g (some url) ok = (.paymentRequired url, db) ∧
    ticketsUpgrade req db now g none ok = (.paymentFailed, db) := by
  have hcond : (providedEmailOf req ≠ "" &&
      providedEmailOf req ≠ storedEmailOf entityRow) = false := by
    rcases hp with h | h <;> simp [h]
  constructor <;>
  · rw [ticketsUpgrade_entry req db now g _ ok et0 idv cat entityRow
      h1 h2 h3 hT1 hT2 hT3 hallow hfind]
    rw [if_neg hse, hcond]
    simp only [Bool.false_eq_true, if_false]
    rw [if_pos (by simp [hamt, htx])]

/-- The store of the quote scenario: one visitor, one UNUSED coupon. -/
def quoteDb : UpDb :=
  ⟨[("visitors", [authEnt])], [], [⟨3, "SAVE10", 10, some false, none, none⟩], []⟩

/-- C4 witness: a paid quote (amount 500, no txId) with a coupon supplied
returns the checkout url and leaves the store — coupon included — exactly
as it was. -/
theorem upgrade_quote_pure_witness :
    ticketsUpgrade
        ⟨some "visitors", some "v1", some "delegate", some 500, none, none,
         none, some "SAVE10"⟩ quoteDb 7 "T" (some (some "https://pay")) true =
      (.paymentRequired (some "https://pay"), quoteDb) :=
  (upgrade_quote_pure
    ⟨some "visitors", some "v1", some "delegate", some 500, none, none,
     none, some "SAVE10"⟩ quoteDb 7 "T" true "visitors" "v1" "delegate"
    authEnt (some "https://pay") rfl rfl rfl (by decide) (by decide)
    (by decide) (by decide) (by decide) (by decide) (Or.inl (by decide))
    (by decide) (by decide)).1

/-! ## Claim C5: upgrades preserve the ticket code -/

theorem find?_updateFirstEntity (p : Entity → Bool) (f : Entity → Entity)
    (l : List Entity) (d : Entity) (hf : l.find? p = some d)
    (hp : p (f d) = true) :
    (updateFirstEntity p f l).find? p = some (f d) := by
  induction l with
  | nil => simp at hf
  | cons x xs ih =>
    by_cases hx : p x
    · rw [List.find?_cons_of_pos _ hx] at hf
      cases hf
      simp [updateFirstEntity, hx, List.find?_cons_of_pos _ hp]
    · rw [List.find?_cons_of_neg _ hx] at hf
      simp [updateFirstEntity, hx, List.find?_cons_of_neg _ hx, ih hf]

theorem getEnts_setEnts (cols : List (String × List Entity)) (n : String)
    (es : List Entity) (n' : String) :
    getEnts (setEnts cols n es) n' = if n' = n then es else getEnts cols n' := by
  induction cols with
  | nil =>
    simp only [setEnts, getEnts]
    by_cases h : n' = n
    · subst h; simp
    · rw [if_neg (fun h2 => h h2.symm), if_neg h]
  | cons p ps ih =>
    simp only [setEnts]
    by_cases hp : p.1 = n
    · rw [if_pos hp]
      simp only [getEnts]
      by_cases h : n' = n
      · subst h; simp
      · have hp' : ¬p.1 = n' := by rw [hp]; exact fun h2 => h h2.symm
        rw [if_neg (fun h2 => h h2.symm), if_neg h, if_neg hp']
    · rw [if_neg hp]
      simp only [getEnts]
      by_cases h : n' = n
      · subst h
        rw [if_neg hp, ih, if_pos rfl, if_pos rfl]
      · rw [ih, if_neg h, if_neg h]

/-- Neither entity-sync composition step touches the entity id, and the
email-status write leaves `ticket_code` alone. -/
theorem applyEmailStatus_ticket_code (ok : Bool) (now : Nat) (e : Entity) :
    (applyEmailStatus ok now e).ticket_code = e.ticket_code := by
  unfold applyEmailStatus
  by_cases h : ok = true <;> simp [h]

theorem applyEmailStatus_id (ok : Bool) (now : Nat) (e : Entity) :
    (applyEmailStatus ok now e).id = e.id := by
  unfold applyEmailStatus
  by_cases h : ok = true <;> simp [h]

/-- C5 (amended): when a ticket record already exists for
`(entityType, entityId)` with a non-empty `ticket_code`, an authorized
non-payment-deferred upgrade without a coupon (i) keeps that `ticket_code`
(and `createdAt`) on the ticket record — the `$set` rewrites the mutable
fields `name`, `email`, `company`, `category`, `txId`, `paymentMethod`,
`meta` and `updatedAt`, not only category/meta/updatedAt as claimed — and
(ii) writes exactly that preserved code back to the registrant. -/
theorem upgrade_preserves_ticket_code (req : UpgradeReq) (db : UpDb)
    (now : Nat) (g : String) (pay : Option (Option String)) (ok : Bool)
    (et0 idv cat : String) (entityRow : Entity) (t : Ticket)
    (h1 : req.entity_type = some et0) (h2 : req.entity_id = some idv)
    (h3 : req.new_category = some cat)
    (hT1 : et0 ≠ "") (hT2 : idv ≠ "") (hT3 : cat ≠ "")
    (hallow : ALLOWED_ENTITIES.contains (jsLower et0) = true)
    (hfind : (getEnts db.entityCols (jsLower et0)).find? (fun e => e.id = idv)
      = some entityRow)
    (hse : storedEmailOf entityRow ≠ "")
    (hp : providedEmailOf req = "" ∨
      providedEmailOf req = storedEmailOf entityRow)
    (hnopay : (0 < req.amount.getD 0 && !(strTruthy req.txId)) = false)
    (hnocoupon : strTruthy req.couponCode = false)
    (hticket : db.tickets.find? (ticketFilter (jsLower et0) idv) = some t)
    (hcode : t.ticket_code ≠ "") :
    ∃ db',
      ticketsUpgrade req db now g pay ok =
        (.upgraded (some t.ticket_code) cat, db') ∧
      db'.tickets = updateFirstTicket (ticketFilter (jsLower et0) idv)
        (applyTicketSet entityRow (jsLower et0) idv cat
          (if strTruthy req.txId then req.txId else none)
          (if jsOrS req.method "online" = "" then "free"
           else jsOrS req.method "online") now) db.tickets ∧
      (applyTicketSet entityRow (jsLower et0) idv cat
          (if strTruthy req.txId then req.txId else none)
          (if jsOrS req.method "online" = "" then "free"
           else jsOrS req.method "online") now t).ticket_code =
        t.ticket_code ∧
      (applyTicketSet entityRow (jsLower et0) idv cat
          (if strTruthy req.txId then req.txId else none)
          (if jsOrS req.method "online" = "" then "free"
           else jsOrS req.method "online") now t).createdAt =
        t.createdAt ∧
      ((getEnts db'.entityCols (jsLower et0)).find? (fun e => e.id = idv)).map
          (fun e => e.ticket_code) = some (some t.ticket_code) := by
  have hcond : (providedEmailOf req ≠ "" &&
      providedEmailOf req ≠ storedEmailOf entityRow) = false := by
    rcases hp with h | h <;> simp [h]
  rw [ticketsUpgrade_entry req db now g pay ok et0 idv cat entityRow
    h1 h2 h3 hT1 hT2 hT3 hallow hfind]
  rw [if_neg hse, hcond]
  simp only [Bool.false_eq_true, if_false]
  rw [hnopay]
  simp only [Bool.false_eq_true, if_false]
  simp only [upgradeApply, hnocoupon, Bool.false_eq_true, if_false,
    ticketUpsert, hticket]
  have htc : (applyTicketSet entityRow (jsLower et0) idv cat
      (if strTruthy req.txId then req.txId else none)
      (if jsOrS req.method "online" = "" then "free"
       else jsOrS req.method "online") now t).ticket_code = t.ticket_code := rfl
  have hfc : jsOrN (some (applyTicketSet entityRow (jsLower et0) idv cat
      (if strTruthy req.txId then req.txId else none)
      (if jsOrS req.method "online" = "" then "free"
       else jsOrS req.method "online") now t).ticket_code)
      (jsOrN entityRow.ticket_code (jsOrN entityRow.code none)) =
      some t.ticket_code := by
    rw [htc]
    simp [jsOrN, hcode]
  rw [hfc]
  refine ⟨_, rfl, rfl, rfl, rfl, ?_⟩
  · rw [getEnts_setEnts, if_pos rfl]
    rw [if_neg hse]
    have h0 := List.find?_some hfind
    have hidrow : entityRow.id = idv := of_decide_eq_true h0
    have hid1 : (fun e => decide (e.id = idv))
        (applyEntitySync cat (some t.ticket_code)
          (if strTruthy req.txId then req.txId else none)
          (if jsOrS req.method "online" = "" then none
           else some (jsOrS req.method "online")) now entityRow) = true := by
      simp [applyEntitySync, hidrow]
    have hstep1 := find?_updateFirstEntity _ _ _ _ hfind hid1
    have hid2 : (fun e => decide (e.id = idv))
        (applyEmailStatus ok now
          (applyEntitySync cat (some t.ticket_code)
            (if strTruthy req.txId then req.txId else none)
            (if jsOrS req.method "online" = "" then none
             else some (jsOrS req.method "online")) now entityRow)) = true := by
      show decide ((applyEmailStatus ok now
        (applyEntitySync cat (some t.ticket_code)
          (if strTruthy req.txId then req.txId else none)
          (if jsOrS req.method "online" = "" then none
           else some (jsOrS req.method "online")) now entityRow)).id = idv) = true
      rw [applyEmailStatus_id]
      exact hid1
    have hstep2 := find?_updateFirstEntity _ _ _ _ hstep1 hid2
    rw [hstep2]
    simp only [Option.map_some']
    rw [applyEmailStatus_ticket_code]
    rfl

/-- The pre-existing ticket record of the C5 scenario. -/
def keepTicket : Ticket :=
  { entity_type := "visitors", entity_id := "v1", name := none, email := none,
    company := none, category := "visitor", txId := none,
    paymentMethod := "free", meta := ⟨"self-service", 0, none⟩,
    createdAt := 1, updatedAt := 1, ticket_code := "TICK-KEEP" }

/-- Store with one visitor and one existing ticket. -/
def keepDb : UpDb := ⟨[("visitors", [authEnt])], [keepTicket], [], []⟩

/-- The confirm-call request of the C5 scenario (txId present). -/
def keepReq : UpgradeReq :=
  ⟨some "visitors", some "v1", some "delegate", some 500, none, some "TX1",
   some "online", none⟩

/-- C5 (counterexample): an upgrade confirm call preserves the existing
`ticket_code`, but it does NOT change only category/meta/updatedAt: the
stored ticket's `txId` moves from `null` to the supplied transaction id
(and `paymentMethod` is rewritten too). -/
theorem upgrade_rewrites_txid_cex :
    (keepDb.tickets.map fun t => (t.txId, t.paymentMethod)) =
      [(none, "free")] ∧
    (((ticketsUpgrade keepReq keepDb 9 "TICK-NEW" none true).2).tickets.map
      fun t => (t.txId, t.paymentMethod)) = [(some "TX1", "online")] ∧
    (((ticketsUpgrade keepReq keepDb 9 "TICK-NEW" none true).2).tickets.map
      fun t => t.ticket_code) = ["TICK-KEEP"] :=
  ⟨by decide, by decide, by decide⟩

/-- C5 witness: the preservation theorem applied at the concrete scenario. -/
theorem upgrade_preserves_ticket_code_witness :
    ∃ db',
      ticketsUpgrade keepReq keepDb 9 "TICK-NEW" none true =
        (.upgraded (some keepTicket.ticket_code) "delegate", db') ∧
      db'.tickets = updateFirstTicket (ticketFilter (jsLower "visitors") "v1")
        (applyTicketSet authEnt (jsLower "visitors") "v1" "delegate"
          (if strTruthy keepReq.txId then keepReq.txId else none)
          (if jsOrS keepReq.method "online" = "" then "free"
           else jsOrS keepReq.method "online") 9) keepDb.tickets ∧
      (applyTicketSet authEnt (jsLower "visitors") "v1" "delegate"
          (if strTruthy keepReq.txId then keepReq.txId else none)
          (if jsOrS keepReq.method "online" = "" then "free"
           else jsOrS keepReq.method "online") 9 keepTicket).ticket_code =
        keepTicket.ticket_code ∧
      (applyTicketSet authEnt (jsLower "visitors") "v1" "delegate"
          (if strTruthy keepReq.txId then keepReq.txId else none)
          (if jsOrS keepReq.method "online" = "" then "free"
           else jsOrS keepReq.method "online") 9 keepTicket).createdAt =
        keepTicket.createdAt ∧
      ((getEnts db'.entityCols (jsLower "visitors")).find?
          (fun e => e.id = "v1")).map (fun e => e.ticket_code) =
        some (some keepTicket.ticket_code) :=
  upgrade_preserves_ticket_code keepReq keepDb 9 "TICK-NEW" none true
    "visitors" "v1" "delegate" authEnt keepTicket rfl rfl rfl
    (by decide) (by decide) (by decide) (by decide) (by decide) (by decide)
    (Or.inl (by decide)) (by decide) (by decide) (by decide) (by decide)

/-! ## Ticket resolver (routes/tickets-scan.js)

Scan payloads and stored documents are modelled as JSON values.  The two
platform collaborators — `JSON.parse` and `Buffer.from(·, 'base64')` — are
implemented per their standard semantics: the parser covers objects, arrays,
strings (with the common escapes), integer numerals, and the three literals,
and requires the whole input to be consumed; the base64 decoder is lenient
(non-alphabet characters are skipped) and the decoded bytes are read as
ASCII text, which covers all payloads in scope. -/

inductive Json where
  | jnull
  | jbool (b : Bool)
  | jnum (n : Int)
  | jstr (s : String)
  | jarr (xs : List Json)
  | jobj (fields : List (String × Json))

mutual
def jsonDecEq : (a b : Json) → Decidable (a = b)
  | .jnull, .jnull => isTrue rfl
  | .jnull, .jbool y => isFalse (fun h => Json.noConfusion h)
  | .jnull, .jnum y => isFalse (fun h => Json.noConfusion h)
  | .jnull, .jstr y => isFalse (fun h => Json.noConfusion h)
  | .jnull, .jarr y => isFalse (fun h => Json.noConfusion h)
  | .jnull, .jobj y => isFalse (fun h => Json.noConfusion h)
  | .jbool x, .jnull => isFalse (fun h => Json.noConfusion h)
  | .jbool x, .jbool y =>
    match decEq x y with
    | isTrue h => isTrue (by rw [h])
    | isFalse h => isFalse (by intro he; cases he; exact h rfl)
  | .jbool x, .jnum y => isFalse (fun h => Json.noConfusion h)
  | .jbool x, .jstr y => isFalse (fun h => Json.noConfusion h)
  | .jbool x, .jarr y => isFalse (fun h => Json.noConfusion h)
  | .jbool x, .jobj y => isFalse (fun h => Json.noConfusion h)
  | .jnum x, .jnull => isFalse (fun h => Json.noConfusion h)
  | .jnum x, .jbool y => isFalse (fun h => Json.noConfusion h)
  | .jnum x, .jnum y =>
    match decEq x y with
    | isTrue h => isTrue (by rw [h])
    | isFalse h => isFalse (by intro he; cases he; exact h rfl)
  | .jnum x, .jstr y => isFalse (fun h => Json.noConfusion h)
  | .jnum x, .jarr y => isFalse (fun h => Json.noConfusion h)
  | .jnum x, .jobj y => isFalse (fun h => Json.noConfusion h)
  | .jstr x, .jnull => isFalse (fun h => Json.noConfusion h)
  | .jstr x, .jbool y => isFalse (fun h => Json.noConfusion h)
  | .jstr x, .jnum y => isFalse (fun h => Json.noConfusion h)
  | .jstr x, .jstr y =>
    match decEq x y with
    | isTrue h => isTrue (by rw [h])
    | isFalse h => isFalse (by intro he; cases he; exact h rfl)
  | .jstr x, .jarr y => isFalse (fun h => Json.noConfusion h)
  | .jstr x, .jobj y => isFalse (fun h => Json.noConfusion h)
  | .jarr x, .jnull => isFalse (fun h => Json.noConfusion h)
  | .jarr x, .jbool y => isFalse (fun h => Json.noConfusion h)
  | .jarr x, .jnum y => isFalse (fun h => Json.noConfusion h)
  | .jarr x, .jstr y => isFalse (fun h => Json.noConfusion h)
  | .jarr x, .jarr y =>
    match jsonListDecEq x y with
    | isTrue h => isTrue (by rw [h])
    | isFalse h => isFalse (by intro he; cases he; exact h rfl)
  | .jarr x, .jobj y => isFalse (fun h => Json.noConfusion h)
  | .jobj x, .jnull => isFalse (fun h => Json.noConfusion h)
  | .jobj x, .jbool y => isFalse (fun h => Json.noConfusion h)
  | .jobj x, .jnum y => isFalse (fun h => Json.noConfusion h)
  | .jobj x, .jstr y => isFalse (fun h => Json.noConfusion h)
  | .jobj x, .jarr y => isFalse (fun h => Json.noConfusion h)
  | .jobj x, .jobj y =>
    match jsonFieldsDecEq x y with
    | isTrue h => isTrue (by rw [h])
    | isFalse h => isFalse (by intro he; cases he; exact h rfl)

def jsonListDecEq : (a b : List Json) → Decidable (a = b)
  | [], [] => isTrue rfl
  | [], _ :: _ => isFalse (fun h => List.noConfusion h)
  | _ :: _, [] => isFalse (fun h => List.noConfusion h)
  | x :: xs, y :: ys =>
    match jsonDecEq x y, jsonListDecEq xs ys with
    | isTrue h1, isTrue h2 => isTrue (by rw [h1, h2])
    | isFalse h1, _ => isFalse (by intro he; cases he; exact h1 rfl)
    | _, isFalse h2 => isFalse (by intro he; cases he; exact h2 rfl)

def jsonFieldsDecEq : (a b : List (String × Json)) → Decidable (a = b)
  | [], [] => isTrue rfl
  | [], _ :: _ => isFalse (fun h => List.noConfusion h)
  | _ :: _, [] => isFalse (fun h => List.noConfusion h)
  | (k, v) :: xs, (k2, v2) :: ys =>
    match decEq k k2, jsonDecEq v v2, jsonFieldsDecEq xs ys with
    | isTrue h0, isTrue h1, isTrue h2 => isTrue (by rw [h0, h1, h2])
    | isFalse h0, _, _ => isFalse (by intro he; cases he; exact h0 rfl)
    | _, isFalse h1, _ => isFalse (by intro he; cases he; exact h1 rfl)
    | _, _, isFalse h2 => isFalse (by intro he; cases he; exact h2 rfl)

end

instance : DecidableEq Json := jsonDecEq

/-- The opening brace character. -/
def braceOpen : Char := Char.ofNat 123

/-- The closing brace character. -/
def braceClose : Char := Char.ofNat 125

/-- `hasOwnProperty` + read: a JS object property (absent on non-objects;
array index properties never match the candidate names in play). -/
def jGet : Json → String → Option Json
  | .jobj fs, k => (fs.find? (·.1 = k)).map (·.2)
  | _, _ => none

/-- JS truthiness of a JSON value. -/
def jsTruthy : Json → Bool
  | .jnull => false
  | .jbool b => b
  | .jnum n => n ≠ 0
  | .jstr s => s ≠ ""
  | .jarr _ => true
  | .jobj _ => true

/-- `typeof v === "object"` for a non-null value. -/
def isObjLike : Json → Bool
  | .jarr _ => true
  | .jobj _ => true
  | _ => false

mutual

/-- JS `String(v)` (arrays join their members with commas, nulls as empty). -/
def jsToString : Json → String
  | .jnull => "null"
  | .jbool b => if b then "true" else "false"
  | .jnum n => toString n
  | .jstr s => s
  | .jobj _ => "[object Object]"
  | .jarr xs => String.intercalate "," (jsToStringList xs)

def jsToStringList : List Json → List String
  | [] => []
  | .jnull :: xs => "" :: jsToStringList xs
  | x :: xs => jsToString x :: jsToStringList xs

end

mutual

/-- A size measure dominating the work of the stack traversals. -/
def jweight : Json → Nat
  | .jnull => 1
  | .jbool _ => 1
  | .jnum _ => 1
  | .jstr s => s.length + 2
  | .jarr xs => 1 + jweightList xs
  | .jobj fs => 1 + jweightFields fs

def jweightList : List Json → Nat
  | [] => 0
  | x :: xs => jweight x + jweightList xs

def jweightFields : List (String × Json) → Nat
  | [] => 0
  | (_, v) :: fs => jweight v + 1 + jweightFields fs

end

/-- JSON whitespace. -/
def skipWs (cs : List Char) : List Char := cs.dropWhile isWs

/-- The body of a JSON string after its opening quote; supports the common
single-character escapes. -/
def parseStrChars : List Char → Option (List Char × List Char)
  | [] => none
  | '"' :: cs => some ([], cs)
  | '\\' :: e :: cs2 =>
    (if e = '"' then some '"'
     else if e = '\\' then some '\\'
     else if e = '/' then some '/'
     else if e = 'n' then some '\n'
     else if e = 't' then some '\t'
     else if e = 'r' then some '\r'
     else none).bind fun d =>
      (parseStrChars cs2).map fun p => (d :: p.1, p.2)
  | c :: cs => (parseStrChars cs).map fun p => (c :: p.1, p.2)

/-- Leading digit run. -/
def takeDigits : List Char → List Char
  | [] => []
  | c :: cs => if c.isDigit then c :: takeDigits cs else []

/-- Decimal value of a digit list. -/
def natOfDigits (ds : List Char) : Nat :=
  ds.foldl (fun a c => a * 10 + (c.toNat - 48)) 0

mutual

/-- One JSON value (integer numerals; see the section comment). -/
def parseVal (fuel : Nat) (cs : List Char) : Option (Json × List Char) :=
  match fuel with
  | 0 => none
  | fuel + 1 =>
    match skipWs cs with
    | 'n' :: 'u' :: 'l' :: 'l' :: r => some (.jnull, r)
    | 't' :: 'r' :: 'u' :: 'e' :: r => some (.jbool true, r)
    | 'f' :: 'a' :: 'l' :: 's' :: 'e' :: r => some (.jbool false, r)
    | '"' :: r => (parseStrChars r).map fun p => (.jstr (String.mk p.1), p.2)
    | '-' :: r =>
      match takeDigits r with
      | [] => none
      | ds => some (.jnum (-(natOfDigits ds : Nat)), r.drop ds.length)
    | '[' :: r =>
      (match skipWs r with
       | ']' :: r2 => some (.jarr [], r2)
       | _ => (parseItems fuel r).map fun p => (.jarr p.1, p.2))
    | c :: r =>
      if c.isDigit then
        match takeDigits (c :: r) with
        | [] => none
        | ds => some (.jnum (natOfDigits ds : Nat), (c :: r).drop ds.length)
      else if c = braceOpen then
        (match skipWs r with
         | c2 :: r2 =>
           if c2 = braceClose then some (.jobj [], r2)
           else (parseMembers fuel r).map fun p => (.jobj p.1, p.2)
         | [] => none)
      else none
    | [] => none

/-- Comma-separated array items up to `]`. -/
def parseItems (fuel : Nat) (cs : List Char) : Option (List Json × List Char) :=
  match fuel with
  | 0 => none
  | fuel + 1 =>
    (parseVal fuel cs).bind fun p =>
      match skipWs p.2 with
      | ',' :: r => (parseItems fuel r).map fun q => (p.1 :: q.1, q.2)
      | ']' :: r => some ([p.1], r)
      | _ => none

/-- Comma-separated `"key": value` members up to the closing brace. -/
def parseMembers (fuel : Nat) (cs : List Char) :
    Option (List (String × Json) × List Char) :=
  match fuel with
  | 0 => none
  | fuel + 1 =>
    match skipWs cs with
    | '"' :: r =>
      (parseStrChars r).bind fun kp =>
        match skipWs kp.2 with
        | ':' :: r2 =>
          (parseVal fuel r2).bind fun vp =>
            match skipWs vp.2 with
            | ',' :: r3 =>
              (parseMembers fuel r3).map fun q =>
                ((String.mk kp.1, vp.1) :: q.1, q.2)
            | c :: r3 =>
              if c = braceClose then some ([(String.mk kp.1, vp.1)], r3)
              else none
            | [] => none
        | _ => none
    | _ => none

end

/-- `tryParseJsonSafe` — `JSON.parse` with failure as `none`; the whole
input must be consumed. -/
def tryParseJsonSafe (s : String) : Option Json :=
  match parseVal (s.length * 2 + 8) s.data with
  | some (j, rest) => if (skipWs rest).isEmpty then some j else none
  | none => none

/-- `looksLikeBase64` (lines 17–21): after stripping whitespace, nonempty,
all `[A-Za-z0-9+/=]`, and length divisible by 4. -/
def looksLikeBase64 (s : String) : Bool :=
  let s2 := s.data.filter fun c => !(isWs c)
  !s2.isEmpty &&
    s2.all (fun c => c.isAlphanum || c = '+' || c = '/' || c = '=') &&
    s2.length % 4 = 0

def b64Val (c : Char) : Option Nat :=
  if 'A' ≤ c && c ≤ 'Z' then some (c.toNat - 65)
  else if 'a' ≤ c && c ≤ 'z' then some (c.toNat - 71)
  else if '0' ≤ c && c ≤ '9' then some (c.toNat + 4)
  else if c = '+' then some 62
  else if c = '/' then some 63
  else none

def b64Bytes : List Nat → List Nat
  | a :: b :: c :: d :: rest =>
    (a * 4 + b / 16) :: ((b % 16) * 16 + c / 4) :: ((c % 4) * 64 + d) ::
      b64Bytes rest
  | [a, b] => [a * 4 + b / 16]
  | [a, b, c] => [a * 4 + b / 16, (b % 16) * 16 + c / 4]
  | _ => []

/-- `Buffer.from(s, 'base64').toString('utf8')` for ASCII content. -/
def b64Decode (s : String) : String :=
  String.mk ((b64Bytes (s.data.filterMap b64Val)).map Char.ofNat)


/-! ### First scan router (tickets-scan.js lines 26–262) -/

namespace Scan1

/-- `CANDIDATE_FIELDS` (lines 26–28). -/
def CANDIDATE_FIELDS : List String :=
  ["ticket_code", "ticketCode", "ticket_id", "ticketId", "ticket", "ticketNo",
   "ticketno", "ticketid", "code", "c", "id", "tk", "t"]

/-- `k.replace(/([A-Z])/g, "_$1").toLowerCase()` (lines 45, 90). -/
def snakeKey (k : String) : String :=
  jsLower (String.mk (k.data.foldr
    (fun c acc =>
      if 65 ≤ c.toNat && c.toNat ≤ 90 then '_' :: c :: acc else c :: acc) []))

/-- One candidate key of the prefer loop: own property with a non-null value
yields `String(v)`. -/
def tryKey (obj : Json) (k : String) : Option String :=
  match jGet obj k with
  | some v => if v = Json.jnull then none else some (jsToString v)
  | none => none

/-- The prefer loop of `extractTicketIdFromObject` (lines 40–50): each
candidate name, then its snake_case variant. -/
def preferLoop (obj : Json) : List String → Option String
  | [] => none
  | k :: ks =>
    match tryKey obj k with
    | some s => some s
    | none =>
      match tryKey obj (snakeKey k) with
      | some s => some s
      | none => preferLoop obj ks

/-- The key loop over one popped object node (lines 86–95): either an early
`String(v)` return on a candidate key (original or snake_case), or the
non-null values to push, in key order. -/
def objFieldsScan : List (String × Json) → Sum String (List Json)
  | [] => .inr []
  | (k, v) :: fs =>
    if v = Json.jnull then objFieldsScan fs
    else if CANDIDATE_FIELDS.contains k || CANDIDATE_FIELDS.contains (snakeKey k) then
      .inl (jsToString v)
    else
      match objFieldsScan fs with
      | .inl s => .inl s
      | .inr pushed => .inr (v :: pushed)

/-- The stack traversal of `extractTicketIdFromObject` (lines 52–96).  The
head of the list is the top of the stack, so pushed children are reversed.
`fuel` bounds the iterations; the wrapper below instantiates it amply for
the (acyclic) JSON values in play, so the loop never runs dry. -/
def stackLoop : Nat → List Json → Option String
  | 0, _ => none
  | _ + 1, [] => none
  | fuel + 1, node :: rest =>
    match node with
    | .jnull => stackLoop fuel rest
    | .jbool b =>
      if jsTrim (jsToString (.jbool b)) = "" then stackLoop fuel rest
      else some (jsTrim (jsToString (.jbool b)))
    | .jnum n =>
      if jsTrim (jsToString (.jnum n)) = "" then stackLoop fuel rest
      else some (jsTrim (jsToString (.jnum n)))
    | .jstr str =>
      if jsTrim str = "" then
        match tryParseJsonSafe str with
        | some p =>
          if isObjLike p then stackLoop fuel (p :: rest) else stackLoop fuel rest
        | none =>
          if looksLikeBase64 str then
            match tryParseJsonSafe (b64Decode str) with
            | some p2 =>
              if isObjLike p2 then stackLoop fuel (p2 :: rest)
              else if jsTrim (b64Decode str) = "" then stackLoop fuel rest
              else some (jsTrim (b64Decode str))
            | none =>
              if jsTrim (b64Decode str) = "" then stackLoop fuel rest
              else some (jsTrim (b64Decode str))
          else stackLoop fuel rest
      else some (jsTrim str)
    | .jarr xs =>
      stackLoop fuel ((xs.filter (fun x => decide (¬ x = Json.jnull))).reverse ++ rest)
    | .jobj fs =>
      match objFieldsScan fs with
      | .inl s => some s
      | .inr pushed => stackLoop fuel (pushed.reverse ++ rest)

/-- `extractTicketIdFromObject` (first router, lines 36–99). -/
def extractTicketIdFromObject (obj : Json) : Option String :=
  if isObjLike obj then
    match preferLoop obj CANDIDATE_FIELDS with
    | some s => some s
    | none => stackLoop (jweight obj * 2 + 8) [obj]
  else none

/-- `const found = extractTicketIdFromObject(x); if (found) …` — the result
with JS truthiness applied (an empty string does not count). -/
def extractFound (p : Json) : Option String :=
  match extractTicketIdFromObject p with
  | some f => if f = "" then none else some f
  | none => none

end Scan1

/-- Helper for the digit-run regexes: `acc` holds the current digit run,
reversed. -/
def firstRunAux (minL maxL : Nat) : List Char → List Char → Option (List Char)
  | acc, [] => if minL ≤ acc.length then some (acc.reverse.take maxL) else none
  | acc, c :: cs =>
    if c.isDigit then firstRunAux minL maxL (c :: acc) cs
    else if minL ≤ acc.length then some (acc.reverse.take maxL)
    else firstRunAux minL maxL [] cs

/-- First match of the regex `\d{minL,maxL}`: the first maximal digit run of
length at least `minL`, truncated to `maxL` digits. -/
def firstRunStr (minL maxL : Nat) (s : String) : Option String :=
  (firstRunAux minL maxL [] s.data).map String.mk

namespace Scan1

/-- The base64 arm of `extractTicketId` (lines 121–132). -/
def b64Branch (s : String) : Option String :=
  if looksLikeBase64 s then
    match tryParseJsonSafe (b64Decode s) with
    | some p2 =>
      if isObjLike p2 then
        match extractFound p2 with
        | some f => some f
        | none => firstRunStr 3 12 (b64Decode s)
      else firstRunStr 3 12 (b64Decode s)
    | none => firstRunStr 3 12 (b64Decode s)
  else none

/-- The JSON-then-base64 fallback of `extractTicketId`, reached only when the
trimmed string has no 3–12 digit run (lines 114–133). -/
def strFallback (s : String) : Option String :=
  match tryParseJsonSafe s with
  | some p =>
    if isObjLike p then
      match extractFound p with
      | some f => some f
      | none => b64Branch s
    else b64Branch s
  | none => b64Branch s

/-- `extractTicketId` (first router, lines 105–142). -/
def extractTicketId (input : Json) : Option String :=
  match input with
  | .jnull => none
  | .jnum n => some (jsToString (.jnum n))
  | .jbool _ => none
  | .jstr str =>
    if jsTrim str = "" then none
    else
      match firstRunStr 3 12 (jsTrim str) with
      | some d => some d
      | none => strFallback (jsTrim str)
  | .jarr xs => extractFound (.jarr xs)
  | .jobj fs => extractFound (.jobj fs)

/-- A stored document. -/
abbrev Doc := List (String × Json)

/-- Field access on a stored document. -/
def docGet (d : Doc) (k : String) : Option Json := jGet (.jobj d) k

/-- Mongo equality `{f: t}` on a present field: the scalar, or one array
element, equals `t`. -/
def mongoEqJ (t : Json) (v : Json) : Bool :=
  decide (v = t) ||
    (match v with
     | .jarr xs => xs.any fun x => decide (x = t)
     | _ => false)

/-- The anchored case-insensitive regex clause `{f: {$regex: /^key$/i}}` (the
key is regex-escaped, so this is case-insensitive equality on strings). -/
def mongoCiEq (key : String) (v : Json) : Bool :=
  match v with
  | .jstr s => decide (jsLower s = jsLower key)
  | .jarr xs =>
    xs.any fun x =>
      match x with
      | .jstr s => decide (jsLower s = jsLower key)
      | _ => false
  | _ => false

/-- `findOne({f: t})` membership test for one document. -/
def hasFieldEq (d : Doc) (f : String) (t : Json) : Bool :=
  match docGet d f with
  | some v => mongoEqJ t v
  | none => false

/-- The `$or` disjuncts contributed by one candidate field (lines 186–192):
exact string, exact numeric, anchored case-insensitive regex. -/
def fieldMatchOne (keyStr : String) (keyNum : Option Int) (d : Doc)
    (f : String) : Bool :=
  match docGet d f with
  | some v =>
    mongoEqJ (.jstr keyStr) v ||
      (match keyNum with
       | some n => mongoEqJ (.jnum n) v
       | none => false) ||
      mongoCiEq keyStr v
  | none => false

/-- Step 2 of `findTicket`: the candidate-field `$or` query (lines 184–200). -/
def step2Match (keyStr : String) (keyNum : Option Int) (d : Doc) : Bool :=
  CANDIDATE_FIELDS.any (fieldMatchOne keyStr keyNum d)

/-- A document selected by the step-3 scan query: some candidate field or
`_rawForm` exists (lines 204–206). -/
def hasCandidateOrRaw (d : Doc) : Bool :=
  CANDIDATE_FIELDS.any (fun f => (docGet d f).isSome) ||
    (docGet d "_rawForm").isSome

/-- The quick per-field checks of the scan loop (lines 213–220). -/
def quickFieldHit (keyStr : String) (keyNum : Option Int) (d : Doc) : Bool :=
  CANDIDATE_FIELDS.any fun f =>
    match docGet d f with
    | some Json.jnull => false
    | some v =>
      (match keyNum, v with
       | some n, Json.jnum m => decide (n = m)
       | _, _ => false) ||
        decide (jsTrim (jsToString v) = keyStr) ||
        decide (jsLower (jsTrim (jsToString v)) = jsLower keyStr)
    | none => false

/-- `String(keyNum)` — `"null"` when the key is not numeric. -/
def numKeyStr (keyNum : Option Int) : String :=
  match keyNum with
  | some n => jsToString (.jnum n)
  | none => "null"

/-- The deep inspection of a scanned document (lines 222–225). -/
def deepHit (keyStr : String) (keyNum : Option Int) (d : Doc) : Bool :=
  match extractTicketIdFromObject (.jobj d) with
  | some f =>
    !(decide (f = "")) &&
      (decide (jsTrim f = keyStr) || decide (jsTrim f = numKeyStr keyNum))
  | none => false

/-- `pat` is a leading segment of `l`. -/
def leadsWith : List Char → List Char → Bool
  | [], _ => true
  | _ :: _, [] => false
  | a :: as, b :: bs => decide (a = b) && leadsWith as bs

def hasSub : List Char → List Char → Bool
  | [], pat => pat.isEmpty
  | c :: cs, pat => leadsWith pat (c :: cs) || hasSub cs pat

/-- `s.indexOf(sub) !== -1`. -/
def containsSub (s sub : String) : Bool := hasSub s.data sub.data

/-- The base64 / substring fallback for a `_rawForm` string whose JSON parse
is not truthy (lines 236–249). -/
def rawStrElse (keyStr : String) (rs : String) : Bool :=
  if looksLikeBase64 rs then
    (match tryParseJsonSafe (b64Decode rs) with
     | some p2 =>
       if jsTruthy p2 then
         match extractTicketIdFromObject p2 with
         | some f2 => !(decide (f2 = "")) && decide (jsTrim f2 = keyStr)
         | none => false
       else false
     | none => false) ||
      (match firstRunStr 3 12 (b64Decode rs) with
       | some m => decide (m = keyStr)
       | none => false)
  else containsSub rs keyStr

/-- The handling of a `_rawForm` string (lines 230–249). -/
def rawStrHit (keyStr : String) (keyNum : Option Int) (rs : String) : Bool :=
  match tryParseJsonSafe rs with
  | some p =>
    if jsTruthy p then
      match extractTicketIdFromObject p with
      | some f =>
        !(decide (f = "")) &&
          (decide (jsTrim f = keyStr) || decide (jsTrim f = numKeyStr keyNum))
      | none => false
    else rawStrElse keyStr rs
  | none => rawStrElse keyStr rs

/-- The `_rawForm` inspection of the scan loop (lines 227–254). -/
def rawFormHit (keyStr : String) (keyNum : Option Int) (d : Doc) : Bool :=
  match docGet d "_rawForm" with
  | some raw =>
    if jsTruthy raw then
      match raw with
      | .jstr rs => rawStrHit keyStr keyNum rs
      | .jobj fs =>
        (match extractFound (.jobj fs) with
         | some f3 => decide (jsTrim f3 = keyStr)
         | none => false)
      | .jarr xs =>
        (match extractFound (.jarr xs) with
         | some f3 => decide (jsTrim f3 = keyStr)
         | none => false)
      | _ => false
    else false
  | none => false

/-- Whether the step-3 scan loop returns this document (lines 209–254). -/
def docScanHit (keyStr : String) (keyNum : Option Int) (d : Doc) : Bool :=
  quickFieldHit keyStr keyNum d || deepHit keyStr keyNum d ||
    rawFormHit keyStr keyNum d

/-- Lookup in one collection: exact `ticket_code`, numeric `ticket_code`,
candidate-field `$or`, then the capped deep scan (lines 161–259). -/
def findInCol (keyStr : String) (keyNum : Option Int) (scanLimit : Nat)
    (col : List Doc) : Option Doc :=
  match col.find? (fun d => hasFieldEq d "ticket_code" (.jstr keyStr)) with
  | some d => some d
  | none =>
    match
      (match keyNum with
       | some n => col.find? (fun d => hasFieldEq d "ticket_code" (.jnum n))
       | none => none) with
    | some d => some d
    | none =>
      match col.find? (step2Match keyStr keyNum) with
      | some d => some d
      | none =>
        ((col.filter hasCandidateOrRaw).take scanLimit).find?
          (docScanHit keyStr keyNum)

/-- The five registrant collections. -/
structure ScanDb where
  visitors : List Doc
  exhibitors : List Doc
  partners : List Doc
  speakers : List Doc
  awardees : List Doc

/-- The collection sweep, in source order (lines 158, 161). -/
def findCols (keyStr : String) (keyNum : Option Int) (scanLimit : Nat) :
    List (String × List Doc) → Option (Doc × String)
  | [] => none
  | (name, col) :: rest =>
    match findInCol keyStr keyNum scanLimit col with
    | some d => some (d, name)
    | none => findCols keyStr keyNum scanLimit rest

/-- `findTicket` (lines 151–262); `scanLimit` is `TICKET_SCAN_SCAN_LIMIT`. -/
def findTicket (db : ScanDb) (scanLimit : Nat) (ticketKey : String) :
    Option (Doc × String) :=
  if ticketKey = "" then none
  else
    findCols (jsTrim ticketKey)
      (if isDigitsOnly (jsTrim ticketKey) then
        some (digitsToInt (jsTrim ticketKey))
       else none)
      scanLimit
      [("visitors", db.visitors), ("exhibitors", db.exhibitors),
       ("partners", db.partners), ("speakers", db.speakers),
       ("awardees", db.awardees)]

end Scan1

/-! ### Second scan router (tickets-scan.js lines 362–427) -/

namespace Scan2

/-- The `prefer` list of the second router's extractor (line 373). -/
def preferFields : List String :=
  ["ticket_code", "ticketCode", "ticket_id", "ticketId", "ticket", "ticketNo",
   "ticketno", "ticketid", "code", "c", "id", "tk", "t"]

/-- One prefer-list key: own property, non-null, trimming to nonempty
(line 375). -/
def tryKeyTrim (obj : Json) (k : String) : Option String :=
  match jGet obj k with
  | some v =>
    if v = Json.jnull then none
    else if jsTrim (jsToString v) = "" then none
    else some (jsTrim (jsToString v))
  | none => none

/-- The prefer loop (lines 374–378). -/
def preferLoop2 (obj : Json) : List String → Option String
  | [] => none
  | k :: ks =>
    match tryKeyTrim obj k with
    | some s => some s
    | none => preferLoop2 obj ks

/-- `extractTicketIdFromObject` (second router, lines 371–395): the prefer
loop, then for each value a recursive descent into object values, plus the
extra per-item descent into array values.  `fuel` bounds the recursion depth
(the source recurses without bound); the wrapper below instantiates it above
the depth of any value in play. -/
def extractObjVal : Nat → Json → Option String
  | 0, _ => none
  | fuel + 1, obj =>
    match obj with
    | .jobj fs =>
      (match preferLoop2 (.jobj fs) preferFields with
       | some s => some s
       | none =>
         fs.findSome? fun kv =>
           match (if isObjLike kv.2 then extractObjVal fuel kv.2 else none) with
           | some f => some f
           | none =>
             match kv.2 with
             | .jarr xs =>
               xs.findSome? fun x =>
                 if isObjLike x then extractObjVal fuel x else none
             | _ => none)
    | .jarr vs =>
      (match preferLoop2 (.jarr vs) preferFields with
       | some s => some s
       | none =>
         vs.findSome? fun v =>
           match (if isObjLike v then extractObjVal fuel v else none) with
           | some f => some f
           | none =>
             match v with
             | .jarr xs =>
               xs.findSome? fun x =>
                 if isObjLike x then extractObjVal fuel x else none
             | _ => none)
    | _ => none

/-- The fuel wrapper: `jweight` dominates the nesting depth. -/
def extractTicketIdFromObject (obj : Json) : Option String :=
  extractObjVal (jweight obj + 1) obj

/-- One character of the token class `[A-Za-z0-9\-_\.]` (line 400). -/
def isTokenCh (c : Char) : Bool :=
  c.isAlphanum || c = '-' || c = '_' || c = '.'

/-- The full-string token test `/^[A-Za-z0-9\-_\.]{3,64}$/` (line 400). -/
def tokenMatch (s : String) : Bool :=
  s.data.all isTokenCh && decide (3 ≤ s.data.length) && decide (s.data.length ≤ 64)

/-- `s.match(/\{.*\}/s)` first match: from the first opening brace to the
last closing brace, when the latter follows the former. -/
def braceSlice (s : String) : Option String :=
  match s.data.dropWhile (fun c => !(decide (c = braceOpen))) with
  | [] => none
  | c :: cs =>
    match ((c :: cs).reverse.dropWhile (fun c2 => !(decide (c2 = braceClose)))).reverse with
    | [] => none
    | u => some (String.mk u)

/-- The JSON-parse arm (lines 401–405): a truthy parse yielding a truthy id. -/
def jsonArm (s : String) : Option String :=
  match tryParseJsonSafe s with
  | some p =>
    if jsTruthy p then
      match extractTicketIdFromObject p with
      | some f => if f = "" then none else some f
      | none => none
    else none
  | none => none

/-- The base64 arm (lines 406–415). -/
def b64Arm (s : String) : Option String :=
  if looksLikeBase64 s then
    match tryParseJsonSafe (b64Decode s) with
    | some p =>
      if jsTruthy p then
        match extractTicketIdFromObject p with
        | some f => if f = "" then none else some f
        | none => none
      else none
    | none => none
  else none

/-- The brace-slice arm (lines 416–423). -/
def sliceArm (s : String) : Option String :=
  match braceSlice s with
  | some m =>
    match tryParseJsonSafe m with
    | some p =>
      if jsTruthy p then
        match extractTicketIdFromObject p with
        | some f => if f = "" then none else some f
        | none => none
      else none
    | none => none
  | none => none

/-- `extractTicketId` (second router, lines 396–427). -/
def extractTicketId (raw : Json) : Option String :=
  match raw with
  | .jnull => none
  | _ =>
    if jsTrim (jsToString raw) = "" then none
    else if tokenMatch (jsTrim (jsToString raw)) then some (jsTrim (jsToString raw))
    else
      match jsonArm (jsTrim (jsToString raw)) with
      | some r => some r
      | none =>
        match b64Arm (jsTrim (jsToString raw)) with
        | some r => some r
        | none =>
          match sliceArm (jsTrim (jsToString raw)) with
          | some r => some r
          | none => firstRunStr 4 12 (jsTrim (jsToString raw))

end Scan2


/-! ### Claims C3 and C10 -/

/-- C3 counterexample: the resolver round-trip fails for two of the four
payload shapes.  The first router's extractor returns nothing for the bare
string "TICK-AB12CD" (no 3–12 digit run, not JSON, not base64 — the route
answers 400), and the second router's extractor returns nothing for the
object payload (`String(raw)` is "[object Object]"), so the four shapes do
not all resolve to the registrant. -/
theorem resolver_bare_string_fails_cex :
    Scan1.extractTicketId (.jstr "TICK-AB12CD") = none ∧
    Scan2.extractTicketId (.jobj [("ticket_code", .jstr "TICK-AB12CD")]) = none := by
  decide

/-- C3 (amended): for a registrant stored with ticket_code "TICK-AB12CD",
the first router extracts the code from the object, JSON-string and base64
payloads — and `findTicket` then resolves it to that registrant — but the
bare string yields nothing; the second router accepts the bare string, the
JSON string, and the base64 payload, but not the object. -/
theorem resolver_roundtrip_amended (d : Scan1.Doc) (db : Scan1.ScanDb) (L : Nat)
    (hdb : db.visitors = [d])
    (hcode : Scan1.docGet d "ticket_code" = some (.jstr "TICK-AB12CD")) :
    Scan1.extractTicketId (.jobj [("ticket_code", .jstr "TICK-AB12CD")]) =
        some "TICK-AB12CD" ∧
    Scan1.extractTicketId (.jstr "\x7b\"code\":\"TICK-AB12CD\"\x7d") =
        some "TICK-AB12CD" ∧
    Scan1.extractTicketId (.jstr "eyJpZCI6IlRJQ0stQUIxMkNEIn0=") =
        some "TICK-AB12CD" ∧
    Scan1.findTicket db L "TICK-AB12CD" = some (d, "visitors") ∧
    Scan1.extractTicketId (.jstr "TICK-AB12CD") = none ∧
    Scan2.extractTicketId (.jstr "TICK-AB12CD") = some "TICK-AB12CD" ∧
    Scan2.extractTicketId (.jstr "\x7b\"code\":\"TICK-AB12CD\"\x7d") =
        some "TICK-AB12CD" ∧
    Scan2.extractTicketId (.jstr "eyJpZCI6IlRJQ0stQUIxMkNEIn0=") =
        some "TICK-AB12CD" ∧
    Scan2.extractTicketId (.jobj [("ticket_code", .jstr "TICK-AB12CD")]) = none := by
  refine ⟨by decide, by decide, by decide, ?_, by decide, by decide, by decide,
    by decide, by decide⟩
  unfold Scan1.findTicket
  rw [if_neg (by decide : ¬ ("TICK-AB12CD" = ""))]
  have e2 : (if isDigitsOnly (jsTrim "TICK-AB12CD") then
      some (digitsToInt (jsTrim "TICK-AB12CD")) else none) = (none : Option Int) := by
    decide
  rw [e2]
  have e1 : jsTrim "TICK-AB12CD" = "TICK-AB12CD" := by decide
  rw [e1, hdb]
  have h1 : Scan1.hasFieldEq d "ticket_code" (.jstr "TICK-AB12CD") = true := by
    unfold Scan1.hasFieldEq
    rw [hcode]
    decide
  have e3 : Scan1.findInCol "TICK-AB12CD" none L [d] = some d := by
    unfold Scan1.findInCol
    simp only [List.find?]
    rw [h1]
  unfold Scan1.findCols
  rw [e3]

/-- C3 witness: the amended round-trip at a concrete one-document store. -/
theorem resolver_roundtrip_amended_witness :
    Scan1.findTicket ⟨[[("ticket_code", Json.jstr "TICK-AB12CD")]], [], [], [], []⟩
        2000 "TICK-AB12CD" =
      some ([("ticket_code", Json.jstr "TICK-AB12CD")], "visitors") :=
  (resolver_roundtrip_amended [("ticket_code", Json.jstr "TICK-AB12CD")]
    ⟨[[("ticket_code", Json.jstr "TICK-AB12CD")]], [], [], [], []⟩ 2000
    rfl (by decide)).2.2.2.1

/-- C10: in the first router, the 3–12 digit-run scan runs before the JSON
and base64 arms — whenever the trimmed string payload contains a 3–12 digit
run, `extractTicketId` returns the first such run, whatever JSON (or base64
JSON) the string may also be. -/
theorem digit_run_precedes_json (s d : String)
    (h : firstRunStr 3 12 (jsTrim s) = some d) :
    Scan1.extractTicketId (.jstr s) = some d := by
  have he : ¬ jsTrim s = "" := by
    intro he
    rw [he] at h
    exact Option.noConfusion h
  simp only [Scan1.extractTicketId]
  rw [if_neg he, h]

/-- C10 witness: a JSON payload whose ticket_code field is "ABCDEF" still
extracts its digit run "777". -/
theorem digit_run_precedes_json_witness :
    firstRunStr 3 12 (jsTrim "\x7b\"id\":777,\"ticket_code\":\"ABCDEF\"\x7d") =
        some "777" ∧
    Scan1.extractTicketId (.jstr "\x7b\"id\":777,\"ticket_code\":\"ABCDEF\"\x7d") =
        some "777" :=
  ⟨by decide,
    digit_run_precedes_json "\x7b\"id\":777,\"ticket_code\":\"ABCDEF\"\x7d" "777"
      (by decide)⟩

end EventBackend
